import Mathlib

/-!
Verification development for the RuiLian scripting-language implementation
(scanner, recursive-descent parser, tree-walking interpreter).

The Rust source is shallowly embedded: pure Rust functions become Lean
functions, `panic!` sites become `Except` errors, and the `Rc<RefCell>`
environment chain becomes an arena (`List EnvFrame`) addressed by index
inside an explicit interpreter state.  Machine integers (`i64`) are
modelled as `Int`; the one place where a cast matters (`idx as usize` on
array indexing) is modelled with an explicit `% 2^64`.
-/

namespace RuiLian

/-- Tokens, from `src/tokens.rs` (`enum Token`). -/
inductive Token where
  | Number (n : Int)
  | Plus
  | Minus
  | StringLiteral (s : String)
  | Star
  | Slash
  | LeftParen
  | RightParen
  | LeftBracket
  | RightBracket
  | EOF
  | Identifier (s : String)
  | Equals
  | Semicolon
  | Colon
  | Comma
  | Dot
  | LeftBrace
  | RightBrace
  | Greater
  | GreaterEqual
  | Less
  | LessEqual
  | EqualEqual
  | BangEqual
  | Bang
  | Let
  | Print
  | If
  | Else
  | While
  | True
  | False
  | And
  | Or
  | Fn
  | Return
  | For
  | In
  deriving DecidableEq, Repr

/-- `struct TokenWithSpan` from `src/tokens.rs`. -/
structure TokenWithSpan where
  token : Token
  span : Nat × Nat
  deriving DecidableEq, Repr

/-- Binary operators, from `src/ast.rs` (`enum BinOp`). -/
inductive BinOp where
  | Add | Subtract | Multiply | Divide
  | Greater | GreaterEqual | Less | LessEqual
  | EqualEqual | BangEqual
  deriving DecidableEq, Repr

/-- Logical operators, from `src/ast.rs` (`enum LogicalOp`). -/
inductive LogicalOp where
  | And | Or
  deriving DecidableEq, Repr

/-- Unary operators, from `src/ast.rs` (`enum UnaryOp`). -/
inductive UnaryOp where
  | Negate | Not
  deriving DecidableEq, Repr

/-- Expressions, from `src/ast.rs` (`enum Expr`).  `Expr::String` is named
`Str` here because `String` would shadow the field types in this
declaration; everything else keeps the Rust variant name. -/
inductive Expr where
  | Number (n : Int)
  | Map (pairs : List (String × Expr))
  | Str (s : String)
  | Variable (name : String)
  | Assign (name : String) (value : Expr)
  | Binary (left : Expr) (operator : BinOp) (right : Expr)
  | Logical (left : Expr) (operator : LogicalOp) (right : Expr)
  | Unary (operator : UnaryOp) (right : Expr)
  | Call (callee : Expr) (arguments : List Expr)
  | Boolean (b : Bool)
  | Array (elements : List Expr)
  | Index (object : Expr) (index : Expr)
  | IndexAssign (object : Expr) (index : Expr) (value : Expr)
  | Dot (object : Expr) (field : String)
  | DotAssign (object : Expr) (field : String) (value : Expr)
  deriving Repr

/-- Statements, from `src/ast.rs` (`enum Stmt`). -/
inductive Stmt where
  | Expr (e : Expr)
  | Let (name : String) (initializer : Option Expr)
  | Print (e : Expr)
  | Block (statements : List Stmt)
  | If (condition : Expr) (then_branch : Stmt) (else_branch : Option Stmt)
  | While (condition : Expr) (body : Stmt)
  | For (var : String) (iterable : Expr) (body : Stmt)
  | Function (name : String) (params : List String) (body : List Stmt)
  | Return (value : Option Expr)
  deriving Repr

/-- `struct Program` from `src/ast.rs`. -/
structure Program where
  statements : List Stmt

/-! ## Scanner (`src/scanner.rs`)

`Scanner` holds `source : Vec<char>`, `start`, `current`, `line`; we embed
it as pure functions over `List Char` and explicit positions.  Each
`panic!` becomes a `LexError`. -/

/-- Lexical errors: the `panic!` sites of `Scanner::scan_token`, plus the
two modelling artefacts (`OutOfBounds` for an index outside the source,
which `scan_tokens`'s loop guard makes unreachable, and `OutOfFuel` for
fuel exhaustion of the embedded scan loop). -/
inductive LexError where
  | UnterminatedString (line : Nat)
  | UnexpectedChar (c : Char) (line : Nat)
  | NumberOverflow
  | OutOfBounds
  | OutOfFuel
  deriving DecidableEq, Repr

/-- `Scanner::peek`: the character at `i`, or `'\0'` past the end. -/
def peekAt (source : List Char) (i : Nat) : Char :=
  (source.get? i).getD '\x00'

/-- The start-of-identifier character class of `scan_token`'s
match arm `'a'..='z' | 'A'..='Z' | '_'`. -/
def isIdentStart (c : Char) : Bool :=
  ('a' ≤ c && c ≤ 'z') || ('A' ≤ c && c ≤ 'Z') || c = '_'

/-- Embeds Rust's `char::is_alphanumeric` (Unicode Alphabetic or Numeric),
used by `scan_token` for identifier continuation characters.  The full
Unicode tables are out of scope; this definition is exact on the Latin-1
range U+0000..U+00FF (which covers every character appearing in the
theorems below) and deliberately returns `false` above it. -/
def rustIsAlphanumeric (c : Char) : Bool :=
  let n := c.toNat
  (48 ≤ n && n ≤ 57) || (65 ≤ n && n ≤ 90) || (97 ≤ n && n ≤ 122) ||
  n = 0xAA || n = 0xB5 || n = 0xBA ||
  n = 0xB2 || n = 0xB3 || n = 0xB9 ||
  (0xBC ≤ n && n ≤ 0xBE) ||
  (0xC0 ≤ n && n ≤ 0xD6) || (0xD8 ≤ n && n ≤ 0xF6) ||
  (0xF8 ≤ n && n ≤ 0xFF)

/-- The identifier-continuation test of `scan_token`'s loop:
`peek().is_alphanumeric() || peek() == '_'`. -/
def isIdentCont (c : Char) : Bool :=
  rustIsAlphanumeric c || c = '_'

/-- Numeric value of a digit run (the `num_str.parse()` of the number
arm, on the ASCII digits it is applied to). -/
def natOfDigits (digits : List Char) : Nat :=
  digits.foldl (fun acc c => 10 * acc + (c.toNat - 48)) 0

/-- The keyword table at the end of `scan_token`'s identifier arm.
Note it lists eleven words: `for` and `in` are absent and fall through
to `Identifier`. -/
def keywordOrIdentifier (text : String) : Token :=
  if text = "let" then .Let
  else if text = "print" then .Print
  else if text = "if" then .If
  else if text = "else" then .Else
  else if text = "while" then .While
  else if text = "true" then .True
  else if text = "false" then .False
  else if text = "and" then .And
  else if text = "or" then .Or
  else if text = "fn" then .Fn
  else if text = "return" then .Return
  else .Identifier text

/-- The body of `Scanner::scan_token` after `let c = self.advance()`:
consumes one lexeme starting at `start` whose first character is `c`,
returning the token (or `none` for skipped whitespace/comments), the new
`current` position, and the updated `line` counter.  The character loops
of the source (string bodies, comments, digit runs, identifier
continuations) are maximal-prefix scans, embedded with `takeWhile`. -/
def scanTokenAux (source : List Char) (start : Nat) (line : Nat) (c : Char) :
    Except LexError (Option Token × Nat × Nat) :=
    let rest := source.drop (start + 1)
    if c = '"' then
      let body := rest.takeWhile (fun ch => ch ≠ '"')
      let line' := line + body.countP (fun ch => ch = '\n')
      if source.length ≤ start + 1 + body.length then
        .error (.UnterminatedString line')
      else
        .ok (some (.StringLiteral (String.mk body)), start + 1 + body.length + 1, line')
    else if c = '+' then .ok (some .Plus, start + 1, line)
    else if c = '-' then .ok (some .Minus, start + 1, line)
    else if c = '*' then .ok (some .Star, start + 1, line)
    else if c = '/' then
      if peekAt source (start + 1) = '/' then
        let comment := (source.drop (start + 2)).takeWhile (fun ch => ch ≠ '\n')
        .ok (none, start + 2 + comment.length, line)
      else .ok (some .Slash, start + 1, line)
    else if c = '(' then .ok (some .LeftParen, start + 1, line)
    else if c = ')' then .ok (some .RightParen, start + 1, line)
    else if c = '{' then .ok (some .LeftBrace, start + 1, line)
    else if c = '}' then .ok (some .RightBrace, start + 1, line)
    else if c = ';' then .ok (some .Semicolon, start + 1, line)
    else if c = ',' then .ok (some .Comma, start + 1, line)
    else if c = '!' then
      if peekAt source (start + 1) = '=' then .ok (some .BangEqual, start + 2, line)
      else .ok (some .Bang, start + 1, line)
    else if c = '=' then
      if peekAt source (start + 1) = '=' then .ok (some .EqualEqual, start + 2, line)
      else .ok (some .Equals, start + 1, line)
    else if c = '>' then
      if peekAt source (start + 1) = '=' then .ok (some .GreaterEqual, start + 2, line)
      else .ok (some .Greater, start + 1, line)
    else if c = '<' then
      if peekAt source (start + 1) = '=' then .ok (some .LessEqual, start + 2, line)
      else .ok (some .Less, start + 1, line)
    else if c = ' ' || c = '\t' || c = '\r' then .ok (none, start + 1, line)
    else if c = '\n' then .ok (none, start + 1, line + 1)
    else if c.isDigit then
      let digits := rest.takeWhile Char.isDigit
      let n := natOfDigits (c :: digits)
      if 9223372036854775807 < n then .error .NumberOverflow
      else .ok (some (.Number (Int.ofNat n)), start + 1 + digits.length, line)
    else if isIdentStart c then
      let cont := rest.takeWhile isIdentCont
      let text := String.mk (c :: cont)
      .ok (some (keywordOrIdentifier text), start + 1 + cont.length, line)
    else .error (.UnexpectedChar c line)

/-- `Scanner::scan_token`: the `advance()` fetching the character at
`start`, then the dispatch of `scanTokenAux`. -/
def scanToken (source : List Char) (start : Nat) (line : Nat) :
    Except LexError (Option Token × Nat × Nat) :=
  match source.get? start with
  | none => .error .OutOfBounds
  | some c => scanTokenAux source start line c

/-- The loop of `Scanner::scan_tokens`, with fuel for termination; the
trailing `EOF` token is appended when the loop guard fails. -/
def scanLoop : Nat → List Char → Nat → Nat → Except LexError (List TokenWithSpan)
  | 0, _, _, _ => .error .OutOfFuel
  | fuel + 1, source, current, line =>
    if source.length ≤ current then
      .ok [⟨.EOF, (current, current)⟩]
    else
      match scanToken source current line with
      | .error e => .error e
      | .ok (tokOpt, current', line') =>
        match scanLoop fuel source current' line' with
        | .error e => .error e
        | .ok rest =>
          match tokOpt with
          | some t => .ok (⟨t, (current, current')⟩ :: rest)
          | none => .ok rest

/-- `Scanner::scan_tokens` on a source string (`Scanner::new` starts at
`start = current = 0`, `line = 1`).  The fuel `length + 1` always
suffices because every `scan_token` call advances `current`. -/
def scan_tokens (src : String) : Except LexError (List TokenWithSpan) :=
  scanLoop (src.data.length + 1) src.data 0 1

/-! ## Parser (`src/parser.rs`)

The committed `parser.rs` consists of an unresolved merge conflict whose
two sides are byte-identical; the embedding below follows that common
text.  `Parser` holds `tokens : Vec<TokenWithSpan>` and `current`; we
embed its methods as functions of `(tokens, current)` returning the new
`current`.  `panic!`/`expect` sites become `ParseError`s; the one
`Result::Err` the code produces (missing variable name in
`let_declaration`) gets its own constructor because `declaration`
catches exactly it.  One repair was unavoidable: the source constructs
`Expr::Call` with the raw identifier string while `ast.rs` declares
`callee: Box<Expr>` (the file does not compile as committed); following
the interpreter, which matches the callee against `Expr::Variable`, the
embedding wraps the name as `Expr.Variable name`. -/

/-- Parser errors: the `panic!`/`expect`/`unreachable!` sites of
`src/parser.rs`, the recoverable `Err` of `let_declaration`, and the
fuel-exhaustion artefact of the embedding. -/
inductive ParseError where
  | LetNameMissing (pos : Nat)
  | ConsumeFail (msg : String)
  | InvalidAssignTarget
  | ExpectedExpression (pos : Nat)
  | ExpectFail (msg : String)
  | Unreachable
  | OutOfFuel
  deriving DecidableEq, Repr

/-- The token at index `i` (`self.tokens[i].token`).  The scanner always
ends the vector with `EOF`, and the parser never indexes past it, so the
`EOF` default for an out-of-range index is unreachable from scanned
input. -/
def tokenAt (tokens : List TokenWithSpan) (i : Nat) : Token :=
  ((tokens.get? i).map (fun t => t.token)).getD .EOF

/-- `Parser::is_at_end`. -/
def is_at_end (tokens : List TokenWithSpan) (current : Nat) : Bool :=
  tokens.length ≤ current || tokenAt tokens current = .EOF

/-- `Parser::check`: token kinds match, with any two `Identifier`s
considered equal. -/
def check (tokens : List TokenWithSpan) (current : Nat) (tt : Token) : Bool :=
  if is_at_end tokens current then false
  else
    match tokenAt tokens current, tt with
    | .Identifier _, .Identifier _ => true
    | a, b => a = b

/-- `Parser::advance` (its effect on `current`; the returned `previous`
token is read separately via `tokenAt`). -/
def advance (tokens : List TokenWithSpan) (current : Nat) : Nat :=
  if is_at_end tokens current then current else current + 1

/-- `Parser::matches`: try each token in order, consuming the first that
checks; returns whether one matched and the new `current`. -/
def matchesTok (tokens : List TokenWithSpan) (current : Nat) :
    List Token → Bool × Nat
  | [] => (false, current)
  | t :: rest =>
    if check tokens current t then (true, advance tokens current)
    else matchesTok tokens current rest

/-- `Parser::consume`: advance past the expected token or fail with the
given panic message. -/
def consume (tokens : List TokenWithSpan) (current : Nat) (t : Token)
    (msg : String) : Except ParseError Nat :=
  if check tokens current t then .ok (advance tokens current)
  else .error (.ConsumeFail msg)

/-- `Parser::consume_identifier`. -/
def consume_identifier (tokens : List TokenWithSpan) (current : Nat) :
    Option (String × Nat) :=
  match tokenAt tokens current with
  | .Identifier name => some (name, advance tokens current)
  | _ => none

/-- The synchronization set of `Parser::synchronize`'s `match`:
`Token::Let | Token::Print | Token::If | Token::While`.  `Token::Fn` is
not in it. -/
def stopToken : Token → Bool
  | .Let | .Print | .If | .While => true
  | _ => false

/-- The `while` loop of `Parser::synchronize`: at each position, stop if
at end, if the previous token was a semicolon, or if the current token is
in the synchronization set; otherwise advance. -/
def syncLoop : Nat → List TokenWithSpan → Nat → Nat
  | 0, _, current => current
  | fuel + 1, tokens, current =>
    if is_at_end tokens current then current
    else if tokenAt tokens (current - 1) = .Semicolon then current
    else if stopToken (tokenAt tokens current) then current
    else syncLoop fuel tokens (current + 1)

/-- `Parser::synchronize`: one unconditional `advance`, then the loop. -/
def synchronize (fuel : Nat) (tokens : List TokenWithSpan) (current : Nat) : Nat :=
  syncLoop fuel tokens (advance tokens current)

/-- Maps an operator token back to its `BinOp`, as read from
`self.previous().token` in the binary-operator loops; any other token is
the loops' `unreachable!()`. -/
def binOpOfToken : Token → Option BinOp
  | .EqualEqual => some .EqualEqual
  | .BangEqual => some .BangEqual
  | .Greater => some .Greater
  | .GreaterEqual => some .GreaterEqual
  | .Less => some .Less
  | .LessEqual => some .LessEqual
  | .Plus => some .Add
  | .Minus => some .Subtract
  | .Star => some .Multiply
  | .Slash => some .Divide
  | _ => none

mutual

/-- The `while` loop of `Parser::parse`. -/
def parseLoop : Nat → List TokenWithSpan → Nat → Except ParseError (List Stmt)
  | 0, _, _ => .error .OutOfFuel
  | fuel + 1, tokens, current =>
    if is_at_end tokens current then .ok []
    else
      match declaration fuel tokens current with
      | .error e => .error e
      | .ok (stmtOpt, c1) =>
        match parseLoop fuel tokens c1 with
        | .error e => .error e
        | .ok rest =>
          match stmtOpt with
          | some s => .ok (s :: rest)
          | none => .ok rest
  termination_by structural a _ _ => a


/-- `Parser::declaration`: `let` declarations recover from the
`Err` of `let_declaration` by synchronizing; everything else panics
through. -/
def declaration : Nat → List TokenWithSpan → Nat → Except ParseError (Option Stmt × Nat)
  | 0, _, _ => .error .OutOfFuel
  | fuel + 1, tokens, current =>
    let (m, c1) := matchesTok tokens current [.Let]
    if m then
      match let_declaration fuel tokens c1 with
      | .ok (stmt, c2) => .ok (some stmt, c2)
      | .error (.LetNameMissing p) =>
        .ok (none, synchronize (tokens.length + 1) tokens p)
      | .error e => .error e
    else statement fuel tokens current
  termination_by structural a _ _ => a


/-- `Parser::let_declaration`. -/
def let_declaration : Nat → List TokenWithSpan → Nat → Except ParseError (Stmt × Nat)
  | 0, _, _ => .error .OutOfFuel
  | fuel + 1, tokens, current =>
    match consume_identifier tokens current with
    | none => .error (.LetNameMissing current)
    | some (name, c1) =>
      let (m, c2) := matchesTok tokens c1 [.Equals]
      if m then
        match expression fuel tokens c2 with
        | .error e => .error e
        | .ok (initE, c3) =>
          match consume tokens c3 .Semicolon "Expected ';' after variable declaration" with
          | .error e => .error e
          | .ok c4 => .ok (.Let name (some initE), c4)
      else
        match consume tokens c1 .Semicolon "Expected ';' after variable declaration" with
        | .error e => .error e
        | .ok c4 => .ok (.Let name none, c4)


/-- `Parser::statement`. -/
def statement : Nat → List TokenWithSpan → Nat → Except ParseError (Option Stmt × Nat)
  | 0, _, _ => .error .OutOfFuel
  | fuel + 1, tokens, current =>
    let (mIf, cIf) := matchesTok tokens current [.If]
    if mIf then if_statement fuel tokens cIf
    else
      let (mWh, cWh) := matchesTok tokens current [.While]
      if mWh then while_statement fuel tokens cWh
      else
        let (mBr, cBr) := matchesTok tokens current [.LeftBrace]
        if mBr then
          match block fuel tokens cBr with
          | .error e => .error e
          | .ok (s, c1) => .ok (some s, c1)
        else
          let (mPr, cPr) := matchesTok tokens current [.Print]
          if mPr then print_statement fuel tokens cPr
          else expression_statement fuel tokens current
  termination_by structural a _ _ => a


/-- `Parser::if_statement`. -/
def if_statement : Nat → List TokenWithSpan → Nat → Except ParseError (Option Stmt × Nat)
  | 0, _, _ => .error .OutOfFuel
  | fuel + 1, tokens, current =>
    match consume tokens current .LeftParen "Expect '(' after 'if'." with
    | .error e => .error e
    | .ok c1 =>
      match expression fuel tokens c1 with
      | .error e => .error e
      | .ok (condE, c2) =>
        match consume tokens c2 .RightParen "Expect ')' after if condition." with
        | .error e => .error e
        | .ok c3 =>
          match statement fuel tokens c3 with
          | .error e => .error e
          | .ok (none, _) => .error (.ExpectFail "Expect statement for if body.")
          | .ok (some thenS, c4) =>
            let (mE, c5) := matchesTok tokens c4 [.Else]
            if mE then
              match statement fuel tokens c5 with
              | .error e => .error e
              | .ok (none, _) => .error (.ExpectFail "Expect statement for else body.")
              | .ok (some elseS, c6) => .ok (some (.If condE thenS (some elseS)), c6)
            else .ok (some (.If condE thenS none), c4)
  termination_by structural a _ _ => a


/-- `Parser::while_statement`. -/
def while_statement : Nat → List TokenWithSpan → Nat → Except ParseError (Option Stmt × Nat)
  | 0, _, _ => .error .OutOfFuel
  | fuel + 1, tokens, current =>
    match consume tokens current .LeftParen "Expect '(' after 'while'." with
    | .error e => .error e
    | .ok c1 =>
      match expression fuel tokens c1 with
      | .error e => .error e
      | .ok (condE, c2) =>
        match consume tokens c2 .RightParen "Expect ')' after while condition." with
        | .error e => .error e
        | .ok c3 =>
          match statement fuel tokens c3 with
          | .error e => .error e
          | .ok (none, _) => .error (.ExpectFail "Expect statement for while body.")
          | .ok (some bodyS, c4) => .ok (some (.While condE bodyS), c4)
  termination_by structural a _ _ => a


/-- The statement loop of `Parser::block`. -/
def blockLoop : Nat → List TokenWithSpan → Nat → Except ParseError (List Stmt × Nat)
  | 0, _, _ => .error .OutOfFuel
  | fuel + 1, tokens, current =>
    if !check tokens current .RightBrace && !is_at_end tokens current then
      match declaration fuel tokens current with
      | .error e => .error e
      | .ok (stmtOpt, c1) =>
        match blockLoop fuel tokens c1 with
        | .error e => .error e
        | .ok (rest, c2) =>
          match stmtOpt with
          | some s => .ok (s :: rest, c2)
          | none => .ok (rest, c2)
    else .ok ([], current)
  termination_by structural a _ _ => a


/-- `Parser::block`. -/
def block : Nat → List TokenWithSpan → Nat → Except ParseError (Stmt × Nat)
  | 0, _, _ => .error .OutOfFuel
  | fuel + 1, tokens, current =>
    match blockLoop fuel tokens current with
    | .error e => .error e
    | .ok (stmts, c1) =>
      match consume tokens c1 .RightBrace "Expect '\x7d' after block." with
      | .error e => .error e
      | .ok c2 => .ok (.Block stmts, c2)
  termination_by structural a _ _ => a


/-- `Parser::print_statement`. -/
def print_statement : Nat → List TokenWithSpan → Nat → Except ParseError (Option Stmt × Nat)
  | 0, _, _ => .error .OutOfFuel
  | fuel + 1, tokens, current =>
    match expression fuel tokens current with
    | .error e => .error e
    | .ok (e, c1) =>
      match consume tokens c1 .Semicolon "Expected ';' after value" with
      | .error e => .error e
      | .ok c2 => .ok (some (.Print e), c2)


/-- `Parser::expression_statement`. -/
def expression_statement : Nat → List TokenWithSpan → Nat → Except ParseError (Option Stmt × Nat)
  | 0, _, _ => .error .OutOfFuel
  | fuel + 1, tokens, current =>
    match expression fuel tokens current with
    | .error e => .error e
    | .ok (e, c1) =>
      match consume tokens c1 .Semicolon "Expected ';' after expression" with
      | .error e => .error e
      | .ok c2 => .ok (some (.Expr e), c2)


/-- `Parser::expression`. -/
def expression : Nat → List TokenWithSpan → Nat → Except ParseError (Expr × Nat)
  | 0, _, _ => .error .OutOfFuel
  | fuel + 1, tokens, current => assignment fuel tokens current
  termination_by structural a _ _ => a


/-- `Parser::assignment` (right-associative; only a `Variable` left side
is a legal target). -/
def assignment : Nat → List TokenWithSpan → Nat → Except ParseError (Expr × Nat)
  | 0, _, _ => .error .OutOfFuel
  | fuel + 1, tokens, current =>
    match logical_or fuel tokens current with
    | .error e => .error e
    | .ok (e, c1) =>
      let (m, c2) := matchesTok tokens c1 [.Equals]
      if m then
        match assignment fuel tokens c2 with
        | .error er => .error er
        | .ok (v, c3) =>
          match e with
          | .Variable name => .ok (.Assign name v, c3)
          | _ => .error .InvalidAssignTarget
      else .ok (e, c1)
  termination_by structural a _ _ => a


/-- `Parser::logical_or`. -/
def logical_or : Nat → List TokenWithSpan → Nat → Except ParseError (Expr × Nat)
  | 0, _, _ => .error .OutOfFuel
  | fuel + 1, tokens, current =>
    match logical_and fuel tokens current with
    | .error e => .error e
    | .ok (e, c1) => logical_or_loop fuel tokens c1 e
  termination_by structural a _ _ => a


/-- The `while self.matches(&[Token::Or])` loop of `logical_or`. -/
def logical_or_loop : Nat → List TokenWithSpan → Nat → Expr → Except ParseError (Expr × Nat)
  | 0, _, _, _ => .error .OutOfFuel
  | fuel + 1, tokens, current, e =>
    let (m, c1) := matchesTok tokens current [.Or]
    if m then
      match logical_and fuel tokens c1 with
      | .error er => .error er
      | .ok (r, c2) => logical_or_loop fuel tokens c2 (.Logical e .Or r)
    else .ok (e, current)
  termination_by structural a _ _ _ => a


/-- `Parser::logical_and`. -/
def logical_and : Nat → List TokenWithSpan → Nat → Except ParseError (Expr × Nat)
  | 0, _, _ => .error .OutOfFuel
  | fuel + 1, tokens, current =>
    match equality fuel tokens current with
    | .error e => .error e
    | .ok (e, c1) => logical_and_loop fuel tokens c1 e
  termination_by structural a _ _ => a


/-- The `while self.matches(&[Token::And])` loop of `logical_and`. -/
def logical_and_loop : Nat → List TokenWithSpan → Nat → Expr → Except ParseError (Expr × Nat)
  | 0, _, _, _ => .error .OutOfFuel
  | fuel + 1, tokens, current, e =>
    let (m, c1) := matchesTok tokens current [.And]
    if m then
      match equality fuel tokens c1 with
      | .error er => .error er
      | .ok (r, c2) => logical_and_loop fuel tokens c2 (.Logical e .And r)
    else .ok (e, current)
  termination_by structural a _ _ _ => a


/-- `Parser::equality`. -/
def equality : Nat → List TokenWithSpan → Nat → Except ParseError (Expr × Nat)
  | 0, _, _ => .error .OutOfFuel
  | fuel + 1, tokens, current =>
    match comparison fuel tokens current with
    | .error e => .error e
    | .ok (e, c1) => equality_loop fuel tokens c1 e
  termination_by structural a _ _ => a


/-- The operator loop of `equality`. -/
def equality_loop : Nat → List TokenWithSpan → Nat → Expr → Except ParseError (Expr × Nat)
  | 0, _, _, _ => .error .OutOfFuel
  | fuel + 1, tokens, current, e =>
    let (m, c1) := matchesTok tokens current [.EqualEqual, .BangEqual]
    if m then
      match binOpOfToken (tokenAt tokens (c1 - 1)) with
      | none => .error .Unreachable
      | some op =>
        match comparison fuel tokens c1 with
        | .error er => .error er
        | .ok (r, c2) => equality_loop fuel tokens c2 (.Binary e op r)
    else .ok (e, current)
  termination_by structural a _ _ _ => a


/-- `Parser::comparison`. -/
def comparison : Nat → List TokenWithSpan → Nat → Except ParseError (Expr × Nat)
  | 0, _, _ => .error .OutOfFuel
  | fuel + 1, tokens, current =>
    match term fuel tokens current with
    | .error e => .error e
    | .ok (e, c1) => comparison_loop fuel tokens c1 e
  termination_by structural a _ _ => a


/-- The operator loop of `comparison`. -/
def comparison_loop : Nat → List TokenWithSpan → Nat → Expr → Except ParseError (Expr × Nat)
  | 0, _, _, _ => .error .OutOfFuel
  | fuel + 1, tokens, current, e =>
    let (m, c1) := matchesTok tokens current
      [.Greater, .GreaterEqual, .Less, .LessEqual]
    if m then
      match binOpOfToken (tokenAt tokens (c1 - 1)) with
      | none => .error .Unreachable
      | some op =>
        match term fuel tokens c1 with
        | .error er => .error er
        | .ok (r, c2) => comparison_loop fuel tokens c2 (.Binary e op r)
    else .ok (e, current)
  termination_by structural a _ _ _ => a


/-- `Parser::term`. -/
def term : Nat → List TokenWithSpan → Nat → Except ParseError (Expr × Nat)
  | 0, _, _ => .error .OutOfFuel
  | fuel + 1, tokens, current =>
    match factor fuel tokens current with
    | .error e => .error e
    | .ok (e, c1) => term_loop fuel tokens c1 e
  termination_by structural a _ _ => a


/-- The operator loop of `term`. -/
def term_loop : Nat → List TokenWithSpan → Nat → Expr → Except ParseError (Expr × Nat)
  | 0, _, _, _ => .error .OutOfFuel
  | fuel + 1, tokens, current, e =>
    let (m, c1) := matchesTok tokens current [.Plus, .Minus]
    if m then
      match binOpOfToken (tokenAt tokens (c1 - 1)) with
      | none => .error .Unreachable
      | some op =>
        match factor fuel tokens c1 with
        | .error er => .error er
        | .ok (r, c2) => term_loop fuel tokens c2 (.Binary e op r)
    else .ok (e, current)
  termination_by structural a _ _ _ => a


/-- `Parser::factor`. -/
def factor : Nat → List TokenWithSpan → Nat → Except ParseError (Expr × Nat)
  | 0, _, _ => .error .OutOfFuel
  | fuel + 1, tokens, current =>
    match unary fuel tokens current with
    | .error e => .error e
    | .ok (e, c1) => factor_loop fuel tokens c1 e
  termination_by structural a _ _ => a


/-- The operator loop of `factor`. -/
def factor_loop : Nat → List TokenWithSpan → Nat → Expr → Except ParseError (Expr × Nat)
  | 0, _, _, _ => .error .OutOfFuel
  | fuel + 1, tokens, current, e =>
    let (m, c1) := matchesTok tokens current [.Star, .Slash]
    if m then
      match binOpOfToken (tokenAt tokens (c1 - 1)) with
      | none => .error .Unreachable
      | some op =>
        match unary fuel tokens c1 with
        | .error er => .error er
        | .ok (r, c2) => factor_loop fuel tokens c2 (.Binary e op r)
    else .ok (e, current)
  termination_by structural a _ _ _ => a


/-- `Parser::unary`. -/
def unary : Nat → List TokenWithSpan → Nat → Except ParseError (Expr × Nat)
  | 0, _, _ => .error .OutOfFuel
  | fuel + 1, tokens, current =>
    let (m, c1) := matchesTok tokens current [.Bang, .Minus]
    if m then
      let opOpt : Option UnaryOp :=
        match tokenAt tokens (c1 - 1) with
        | .Bang => some .Not
        | .Minus => some .Negate
        | _ => none
      match opOpt with
      | none => .error .Unreachable
      | some op =>
        match unary fuel tokens c1 with
        | .error er => .error er
        | .ok (r, c2) => .ok (.Unary op r, c2)
    else primary fuel tokens current
  termination_by structural a _ _ => a


/-- `Parser::primary`: boolean literals, numbers, identifiers (plain or
as a call), parenthesized expressions; anything else — including
`LeftBracket` and `LeftBrace` — panics with "Expected expression". -/
def primary : Nat → List TokenWithSpan → Nat → Except ParseError (Expr × Nat)
  | 0, _, _ => .error .OutOfFuel
  | fuel + 1, tokens, current =>
    let (mT, cT) := matchesTok tokens current [.True]
    if mT then .ok (.Boolean true, cT)
    else
      let (mF, cF) := matchesTok tokens current [.False]
      if mF then .ok (.Boolean false, cF)
      else
        match tokenAt tokens current with
        | .Number v => .ok (.Number v, advance tokens current)
        | .Identifier name =>
          let c1 := advance tokens current
          if check tokens c1 .LeftParen then
            let c2 := advance tokens c1
            match argumentsFn fuel tokens c2 with
            | .error e => .error e
            | .ok (args, c3) =>
              match consume tokens c3 .RightParen "Expected ')' after arguments" with
              | .error e => .error e
              | .ok c4 => .ok (.Call (.Variable name) args, c4)
          else .ok (.Variable name, c1)
        | _ =>
          let (mP, cP) := matchesTok tokens current [.LeftParen]
          if mP then
            match expression fuel tokens cP with
            | .error e => .error e
            | .ok (e, c1) =>
              match consume tokens c1 .RightParen "Expected ')' after expression" with
              | .error er => .error er
              | .ok c2 => .ok (e, c2)
          else .error (.ExpectedExpression current)
  termination_by structural a _ _ => a


/-- `Parser::arguments`: empty unless the next token is not `)`. -/
def argumentsFn : Nat → List TokenWithSpan → Nat → Except ParseError (List Expr × Nat)
  | 0, _, _ => .error .OutOfFuel
  | fuel + 1, tokens, current =>
    if !check tokens current .RightParen then argsLoop fuel tokens current
    else .ok ([], current)
  termination_by structural a _ _ => a


/-- The comma loop of `Parser::arguments`. -/
def argsLoop : Nat → List TokenWithSpan → Nat → Except ParseError (List Expr × Nat)
  | 0, _, _ => .error .OutOfFuel
  | fuel + 1, tokens, current =>
    match expression fuel tokens current with
    | .error e => .error e
    | .ok (e, c1) =>
      let (m, c2) := matchesTok tokens c1 [.Comma]
      if m then
        match argsLoop fuel tokens c2 with
        | .error er => .error er
        | .ok (rest, c3) => .ok (e :: rest, c3)
      else .ok ([e], c1)
  termination_by structural a _ _ => a

end

/-- `Parser::parse` (with `Parser::new` starting at `current = 0`). -/
def parse (fuel : Nat) (tokens : List TokenWithSpan) : Except ParseError Program :=
  match parseLoop fuel tokens 0 with
  | .error e => .error e
  | .ok stmts => .ok ⟨stmts⟩

/-! ## Values and environments (`src/environment.rs`)

The `Rc<RefCell<Environment>>` chain is embedded as an arena: a
`List EnvFrame` addressed by index, with `enclosing` an optional parent
index and a `Function`'s `closure` the index of its defining frame.
`HashMap<String, Value>` becomes a duplicate-free association list;
`insert` replaces in place or appends, so only iteration order (which
`HashMap` leaves unspecified anyway) differs from Rust. -/

/-- `struct Function` from `src/environment.rs` (named `Func` to avoid
the `Value.Function` constructor below). -/
structure Func where
  name : String
  params : List String
  body : List Stmt
  closure : Nat
  deriving Repr

/-- `enum Value` from `src/environment.rs`.  `Value::String` is named
`Str` (see `Expr.Str`); `i64` is modelled as `Int`. -/
inductive Value where
  | Number (n : Int)
  | Str (s : String)
  | Boolean (b : Bool)
  | Function (f : Func)
  | Array (elements : List Value)
  | Map (entries : List (String × Value))
  deriving Repr

/-- `HashMap::get` on the association-list model. -/
def lookupEntry : List (String × Value) → String → Option Value
  | [], _ => none
  | (k, v) :: rest, key => if k = key then some v else lookupEntry rest key

/-- `HashMap::insert` on the association-list model: replace the entry in
place if the key is present, otherwise append. -/
def entriesInsert (entries : List (String × Value)) (key : String) (v : Value) :
    List (String × Value) :=
  if entries.any (fun p => p.1 = key) then
    entries.map (fun p => if p.1 = key then (key, v) else p)
  else entries ++ [(key, v)]

mutual

/-- `impl PartialEq for Value` from `src/environment.rs`: structural for
`Number`/`String`/`Boolean`/`Array`/`Map`, `false` for `Function` and
for any cross-type pair. -/
def valueEq : Value → Value → Bool
  | .Number a, .Number b => a = b
  | .Str a, .Str b => a = b
  | .Boolean a, .Boolean b => a = b
  | .Array a, .Array b => valuesEq a b
  | .Map a, .Map b => a.length = b.length && entriesContained a b
  | _, _ => false

/-- `Vec<Value>` equality: same length, elementwise `valueEq`. -/
def valuesEq : List Value → List Value → Bool
  | [], [] => true
  | a :: as', b :: bs' => valueEq a b && valuesEq as' bs'
  | _, _ => false

/-- The `iter().all(...)` half of `HashMap` equality: every entry of the
first map is present and equal in the second. -/
def entriesContained : List (String × Value) → List (String × Value) → Bool
  | [], _ => true
  | (k, v) :: rest, b =>
    (match lookupEntry b k with
     | some w => valueEq v w
     | none => false) && entriesContained rest b

end

mutual

/-- `value_to_string` from `src/interpreter.rs` (the human-readable
rendering used by `print` and by string concatenation).  Map entries are
rendered in association-list order; Rust's `HashMap` iteration order is
unspecified. -/
def value_to_string : Value → String
  | .Number n => toString n
  | .Str s => s
  | .Boolean b => if b then "true" else "false"
  | .Function f => "<function " ++ f.name ++ ">"
  | .Array arr => "[" ++ String.intercalate ", " (valueStrings arr) ++ "]"
  | .Map m => "\x7b" ++ String.intercalate ", " (entryStrings m) ++ "\x7d"

/-- Renders each array element (the `arr.iter().map(...)` of the
`Array` arm). -/
def valueStrings : List Value → List String
  | [] => []
  | v :: rest => value_to_string v :: valueStrings rest

/-- Renders each map entry as `key: value` (the loop of the `Map` arm). -/
def entryStrings : List (String × Value) → List String
  | [] => []
  | (k, v) :: rest => (k ++ ": " ++ value_to_string v) :: entryStrings rest

end

/-- `struct Environment` from `src/environment.rs`, as one arena frame. -/
structure EnvFrame where
  values : List (String × Value)
  enclosing : Option Nat
  deriving Repr

/-- The interpreter's mutable state: the environment arena, the
`self.environment` pointer of `struct Interpreter`, and the text written
to standard output (one entry per `print!`/`println!` write). -/
structure InterpState where
  envs : List EnvFrame
  current : Nat
  output : List String
  deriving Repr

/-- `Environment::get`: resolve outward through the `enclosing` chain.
The chain fuel (always called with the arena size, which bounds any
acyclic chain) and the `none` on a dangling index are modelling
artefacts; the Rust chain is acyclic and its pointers are always
valid. -/
def envGet (envs : List EnvFrame) : Nat → Nat → String → Option Value
  | 0, _, _ => none
  | fuel + 1, id, name =>
    match envs.get? id with
    | none => none
    | some fr =>
      match lookupEntry fr.values name with
      | some v => some v
      | none =>
        match fr.enclosing with
        | some p => envGet envs fuel p name
        | none => none

/-- `Environment::assign`: mutate the first frame outward that already
defines the name; `none` is Rust's `false` (no frame defines it). -/
def envAssign (envs : List EnvFrame) : Nat → Nat → String → Value →
    Option (List EnvFrame)
  | 0, _, _, _ => none
  | fuel + 1, id, name, v =>
    match envs.get? id with
    | none => none
    | some fr =>
      if fr.values.any (fun p => p.1 = name) then
        some (envs.set id { fr with values := entriesInsert fr.values name v })
      else
        match fr.enclosing with
        | some p => envAssign envs fuel p name v
        | none => none

/-- `Environment::define` on frame `id` of the arena. -/
def defineIn (envs : List EnvFrame) (id : Nat) (name : String) (v : Value) :
    List EnvFrame :=
  match envs.get? id with
  | some fr => envs.set id { fr with values := entriesInsert fr.values name v }
  | none => envs

/-- `Environment::new_enclosed`: a fresh frame appended to the arena,
returning its index. -/
def allocEnv (envs : List EnvFrame) (enclosing : Option Nat) : Nat × List EnvFrame :=
  (envs.length, envs ++ [⟨[], enclosing⟩])

/-- Appends one write to the recorded standard output. -/
def pushOutput (st : InterpState) (s : String) : InterpState :=
  { st with output := st.output ++ [s] }

/-! ## Evaluator helpers (`src/interpreter.rs`) -/

/-- Runtime errors: the `panic!` sites of `src/interpreter.rs`, plus the
`OutOfFuel` artefact of the fuel-indexed embedding of its (potentially
diverging) recursion. -/
inductive RtError where
  | OutOfFuel
  | UndefinedVariable (name : String)
  | UndefinedAssign (name : String)
  | CannotAdd
  | CannotSubtract
  | CannotMultiply
  | CannotDivide
  | DivisionByZero
  | CannotCompare
  | CannotNegate
  | IndexOutOfBounds (idx : Nat)
  | MapKeyNotString
  | CannotIndex
  | CannotIndexAssign
  | FieldOnNonMap (field : String)
  | FieldAssignOnNonMap (field : String)
  | LenArity
  | LenArgType
  | ArityMismatch (expected got : Nat)
  | NotCallable
  | CannotIterate
  deriving DecidableEq, Repr

/-- `is_truthy` from `src/interpreter.rs`. -/
def is_truthy : Value → Bool
  | .Number n => n ≠ 0
  | .Str s => !s.isEmpty
  | .Boolean b => b
  | .Function _ => true
  | .Array arr => !arr.isEmpty
  | .Map m => !m.isEmpty

/-- `add_values` from `src/interpreter.rs`: a `String` on either side
concatenates (rendering the other side), `Array + Array` appends,
`Number + Number` adds, anything else panics. -/
def add_values (left right : Value) : Except RtError Value :=
  match left with
  | .Str s => .ok (.Str (s ++ value_to_string right))
  | _ =>
    match right with
    | .Str s => .ok (.Str (value_to_string left ++ s))
    | _ =>
      match left, right with
      | .Array a, .Array b => .ok (.Array (a ++ b))
      | .Number a, .Number b => .ok (.Number (a + b))
      | _, _ => .error .CannotAdd

/-- `subtract_values` from `src/interpreter.rs`. -/
def subtract_values (left right : Value) : Except RtError Value :=
  match left, right with
  | .Number a, .Number b => .ok (.Number (a - b))
  | _, _ => .error .CannotSubtract

/-- `multiply_values` from `src/interpreter.rs`. -/
def multiply_values (left right : Value) : Except RtError Value :=
  match left, right with
  | .Number a, .Number b => .ok (.Number (a * b))
  | _, _ => .error .CannotMultiply

/-- `divide_values` from `src/interpreter.rs`: division by zero panics.
Rust `i64` division truncates toward zero, hence `Int.div`. -/
def divide_values (left right : Value) : Except RtError Value :=
  match left, right with
  | .Number a, .Number b =>
    if b = 0 then .error .DivisionByZero
    else .ok (.Number (Int.tdiv a b))
  | _, _ => .error .CannotDivide

/-- `compare_greater` from `src/interpreter.rs`. -/
def compare_greater (left right : Value) : Except RtError Value :=
  match left, right with
  | .Number a, .Number b => .ok (.Boolean (b < a))
  | _, _ => .error .CannotCompare

/-- `compare_greater_equal` from `src/interpreter.rs`. -/
def compare_greater_equal (left right : Value) : Except RtError Value :=
  match left, right with
  | .Number a, .Number b => .ok (.Boolean (b ≤ a))
  | _, _ => .error .CannotCompare

/-- `compare_less` from `src/interpreter.rs`. -/
def compare_less (left right : Value) : Except RtError Value :=
  match left, right with
  | .Number a, .Number b => .ok (.Boolean (a < b))
  | _, _ => .error .CannotCompare

/-- `compare_less_equal` from `src/interpreter.rs`. -/
def compare_less_equal (left right : Value) : Except RtError Value :=
  match left, right with
  | .Number a, .Number b => .ok (.Boolean (a ≤ b))
  | _, _ => .error .CannotCompare

/-- `compare_equal` from `src/interpreter.rs` (same-tagged structural
comparison, `false` otherwise; `Array`/`Map` arms are the `PartialEq`
of `Value`). -/
def compare_equal (left right : Value) : Value :=
  match left, right with
  | .Number a, .Number b => .Boolean (a = b)
  | .Str a, .Str b => .Boolean (a = b)
  | .Boolean a, .Boolean b => .Boolean (a = b)
  | .Array a, .Array b => .Boolean (valuesEq a b)
  | .Map a, .Map b => .Boolean (valueEq (.Map a) (.Map b))
  | _, _ => .Boolean false

/-- `compare_not_equal` from `src/interpreter.rs`. -/
def compare_not_equal (left right : Value) : Value :=
  match left, right with
  | .Number a, .Number b => .Boolean (a ≠ b)
  | .Str a, .Str b => .Boolean (a ≠ b)
  | .Boolean a, .Boolean b => .Boolean (a ≠ b)
  | .Array a, .Array b => .Boolean (!valuesEq a b)
  | .Map a, .Map b => .Boolean (!valueEq (.Map a) (.Map b))
  | _, _ => .Boolean true

/-- Rust's `idx as usize` on an `i64`: a wrapping cast, modelled with an
explicit `% 2^64`.  A negative index therefore becomes a huge unsigned
offset. -/
def usizeOfI64 (i : Int) : Nat :=
  (i % (18446744073709551616 : Int)).toNat

/-- The `match (object_val, index_val)` of `Expr::Index` evaluation
(`src/interpreter.rs` lines 272-293): `Array` by `Number` with a bounds
panic, `Map` by `String` with `Number 0` for a missing key, a panic for
a non-string map key, and a panic for any other object. -/
def indexRead (objectVal indexVal : Value) : Except RtError Value :=
  match objectVal, indexVal with
  | .Array arr, .Number idx =>
    let i := usizeOfI64 idx
    if arr.length ≤ i then .error (.IndexOutOfBounds i)
    else .ok (arr.getD i (.Number 0))
  | .Map m, .Str key => .ok ((lookupEntry m key).getD (.Number 0))
  | .Map _, _ => .error .MapKeyNotString
  | _, _ => .error .CannotIndex

/-- The `match object_val` of `Expr::Dot` evaluation
(`src/interpreter.rs` lines 336-346): a missing field on a `Map` reads
as `Number 0`; any non-map object panics. -/
def dotRead (objectVal : Value) (field : String) : Except RtError Value :=
  match objectVal with
  | .Map m => .ok ((lookupEntry m field).getD (.Number 0))
  | _ => .error (.FieldOnNonMap field)

/-- The argument match of the `len` intrinsic (`src/interpreter.rs`
lines 245-250).  Rust `String::len` is the UTF-8 byte count, hence
`String.utf8ByteSize`. -/
def lenValue : Value → Except RtError Value
  | .Str s => .ok (.Number (Int.ofNat s.utf8ByteSize))
  | .Array arr => .ok (.Number (Int.ofNat arr.length))
  | .Map m => .ok (.Number (Int.ofNat m.length))
  | _ => .error .LenArgType

/-- The iteration items of `Stmt::For` over a `String`
(`src/interpreter.rs` lines 114-131): one single-character `String` per
Unicode character, via `s.chars()`. -/
def stringIterItems (s : String) : List Value :=
  s.data.map (fun ch => Value.Str (String.mk [ch]))

/-- `Environment::define(param, arg)` for each parameter/argument pair,
as in the `params.iter().zip(arg_values)` loop of
`Interpreter::call_user_function`. -/
def bindParams (envs : List EnvFrame) (id : Nat) (params : List String)
    (argVals : List Value) : List EnvFrame :=
  (params.zip argVals).foldl (fun acc p => defineIn acc id p.1 p.2) envs

/-! ## Evaluator (`src/interpreter.rs`)

`Interpreter::evaluate` / `Interpreter::execute` and their loops, as one
fuel-indexed mutual recursion (the scripted language can diverge, e.g.
`while (true)`).  Every mutual call steps the fuel down once; `execute`
returns `some v` for Rust's `Err(value)` return-propagation channel and
`none` for `Ok(())`, while runtime panics travel in the `Except` error
channel. -/

mutual

/-- `Interpreter::evaluate`. -/
def evaluate : Nat → InterpState → Expr → Except RtError (Value × InterpState)
  | 0, _, _ => .error .OutOfFuel
  | fuel + 1, st, e =>
    match e with
    | .Number n => .ok (.Number n, st)
    | .Str s => .ok (.Str s, st)
    | .Boolean b => .ok (.Boolean b, st)
    | .Variable name =>
      match envGet st.envs st.envs.length st.current name with
      | some v => .ok (v, st)
      | none => .error (.UndefinedVariable name)
    | .Assign name e1 =>
      match evaluate fuel st e1 with
      | .error er => .error er
      | .ok (v, st1) =>
        match envAssign st1.envs st1.envs.length st1.current name v with
        | some envs' => .ok (v, { st1 with envs := envs' })
        | none => .error (.UndefinedAssign name)
    | .Binary l op r =>
      match evaluate fuel st l with
      | .error er => .error er
      | .ok (lv, st1) =>
        match evaluate fuel st1 r with
        | .error er => .error er
        | .ok (rv, st2) =>
          match
            (match op with
             | .Add => add_values lv rv
             | .Subtract => subtract_values lv rv
             | .Multiply => multiply_values lv rv
             | .Divide => divide_values lv rv
             | .Greater => compare_greater lv rv
             | .GreaterEqual => compare_greater_equal lv rv
             | .Less => compare_less lv rv
             | .LessEqual => compare_less_equal lv rv
             | .EqualEqual => .ok (compare_equal lv rv)
             | .BangEqual => .ok (compare_not_equal lv rv)) with
          | .error er => .error er
          | .ok v => .ok (v, st2)
    | .Logical l op r =>
      match evaluate fuel st l with
      | .error er => .error er
      | .ok (lv, st1) =>
        match op with
        | .And =>
          if !is_truthy lv then .ok (.Boolean false, st1)
          else evaluate fuel st1 r
        | .Or =>
          if is_truthy lv then .ok (.Boolean true, st1)
          else evaluate fuel st1 r
    | .Unary op r =>
      match evaluate fuel st r with
      | .error er => .error er
      | .ok (rv, st1) =>
        match op with
        | .Negate =>
          match rv with
          | .Number n => .ok (.Number (-n), st1)
          | _ => .error .CannotNegate
        | .Not => .ok (.Boolean (!is_truthy rv), st1)
    | .Call callee args =>
      match callee with
      | .Variable name =>
        if name = "print" then
          match printEach fuel st args with
          | .error er => .error er
          | .ok st1 => .ok (.Number 0, pushOutput st1 "\n")
        else if name = "len" then
          match args with
          | [a] =>
            match evaluate fuel st a with
            | .error er => .error er
            | .ok (v, st1) =>
              match lenValue v with
              | .error er => .error er
              | .ok lv => .ok (lv, st1)
          | _ => .error .LenArity
        else call_user_function fuel st callee args
      | _ => call_user_function fuel st callee args
    | .Array elems =>
      match evalList fuel st elems with
      | .error er => .error er
      | .ok (vs, st1) => .ok (.Array vs, st1)
    | .Map pairs =>
      match evalPairs fuel st pairs [] with
      | .error er => .error er
      | .ok (m, st1) => .ok (.Map m, st1)
    | .Index obj idx =>
      match evaluate fuel st obj with
      | .error er => .error er
      | .ok (ov, st1) =>
        match evaluate fuel st1 idx with
        | .error er => .error er
        | .ok (iv, st2) =>
          match indexRead ov iv with
          | .error er => .error er
          | .ok v => .ok (v, st2)
    | .IndexAssign obj idx valE =>
      match evaluate fuel st obj with
      | .error er => .error er
      | .ok (ov, st1) =>
        match evaluate fuel st1 idx with
        | .error er => .error er
        | .ok (iv, st2) =>
          match evaluate fuel st2 valE with
          | .error er => .error er
          | .ok (vv, st3) =>
            match ov, iv with
            | .Map m, .Str key =>
              let m' := entriesInsert m key vv
              let st4 :=
                match obj with
                | .Variable varName =>
                  match envAssign st3.envs st3.envs.length st3.current varName (.Map m') with
                  | some envs' => { st3 with envs := envs' }
                  | none => st3
                | _ => st3
              .ok (vv, st4)
            | .Array arr, .Number i =>
              let u := usizeOfI64 i
              if arr.length ≤ u then .error (.IndexOutOfBounds u)
              else
                let arr' := arr.set u vv
                let st4 :=
                  match obj with
                  | .Variable varName =>
                    match envAssign st3.envs st3.envs.length st3.current varName (.Array arr') with
                    | some envs' => { st3 with envs := envs' }
                    | none => st3
                  | _ => st3
                .ok (vv, st4)
            | _, _ => .error .CannotIndexAssign
    | .Dot obj field =>
      match evaluate fuel st obj with
      | .error er => .error er
      | .ok (ov, st1) =>
        match dotRead ov field with
        | .error er => .error er
        | .ok v => .ok (v, st1)
    | .DotAssign obj field valE =>
      match evaluate fuel st obj with
      | .error er => .error er
      | .ok (ov, st1) =>
        match evaluate fuel st1 valE with
        | .error er => .error er
        | .ok (vv, st2) =>
          match ov with
          | .Map m =>
            let m' := entriesInsert m field vv
            let st3 :=
              match obj with
              | .Variable varName =>
                match envAssign st2.envs st2.envs.length st2.current varName (.Map m') with
                | some envs' => { st2 with envs := envs' }
                | none => st2
              | _ => st2
            .ok (vv, st3)
          | _ => .error (.FieldAssignOnNonMap field)

/-- The elementwise evaluation of `Expr::Array` elements and of call
arguments (left to right). -/
def evalList : Nat → InterpState → List Expr → Except RtError (List Value × InterpState)
  | 0, _, _ => .error .OutOfFuel
  | _ + 1, st, [] => .ok ([], st)
  | fuel + 1, st, e :: rest =>
    match evaluate fuel st e with
    | .error er => .error er
    | .ok (v, st1) =>
      match evalList fuel st1 rest with
      | .error er => .error er
      | .ok (vs, st2) => .ok (v :: vs, st2)

/-- The `for (key, value_expr) in pairs` loop of `Expr::Map` evaluation,
inserting into the accumulated map. -/
def evalPairs : Nat → InterpState → List (String × Expr) → List (String × Value) →
    Except RtError (List (String × Value) × InterpState)
  | 0, _, _, _ => .error .OutOfFuel
  | _ + 1, st, [], acc => .ok (acc, st)
  | fuel + 1, st, (k, e) :: rest, acc =>
    match evaluate fuel st e with
    | .error er => .error er
    | .ok (v, st1) => evalPairs fuel st1 rest (entriesInsert acc k v)

/-- The argument loop of the `print` intrinsic: evaluate each argument
and write its rendering followed by a space. -/
def printEach : Nat → InterpState → List Expr → Except RtError InterpState
  | 0, _, _ => .error .OutOfFuel
  | _ + 1, st, [] => .ok st
  | fuel + 1, st, e :: rest =>
    match evaluate fuel st e with
    | .error er => .error er
    | .ok (v, st1) => printEach fuel (pushOutput st1 (value_to_string v ++ " ")) rest

/-- `Interpreter::call_user_function`: evaluate the callee, then apply. -/
def call_user_function : Nat → InterpState → Expr → List Expr →
    Except RtError (Value × InterpState)
  | 0, _, _, _ => .error .OutOfFuel
  | fuel + 1, st, callee, args =>
    match evaluate fuel st callee with
    | .error er => .error er
    | .ok (calleeVal, st1) => applyFunction fuel st1 calleeVal args

/-- The `match callee_value` of `call_user_function`: a `Function` value
is applied (arity check, fresh child of the captured closure, arguments
evaluated left to right in the caller's environment before binding, body
run, result the propagated return or `Number 0`, caller's environment
pointer restored); anything else panics "Can only call functions". -/
def applyFunction : Nat → InterpState → Value → List Expr →
    Except RtError (Value × InterpState)
  | 0, _, _, _ => .error .OutOfFuel
  | fuel + 1, st, v, args =>
    match v with
    | .Function f =>
      if args.length ≠ f.params.length then
        .error (.ArityMismatch f.params.length args.length)
      else
        let (callId, envs1) := allocEnv st.envs (some f.closure)
        match evalList fuel { st with envs := envs1 } args with
        | .error er => .error er
        | .ok (argVals, st2) =>
          let st3 := { st2 with envs := bindParams st2.envs callId f.params argVals }
          let prev := st3.current
          match runBody fuel { st3 with current := callId } f.body with
          | .error er => .error er
          | .ok (rv, st4) => .ok (rv, { st4 with current := prev })
    | _ => .error .NotCallable

/-- The body loop of `call_user_function`: the first propagating return
is the call's result; a body that completes yields `Number 0`. -/
def runBody : Nat → InterpState → List Stmt → Except RtError (Value × InterpState)
  | 0, _, _ => .error .OutOfFuel
  | _ + 1, st, [] => .ok (.Number 0, st)
  | fuel + 1, st, s :: rest =>
    match execute fuel st s with
    | .error er => .error er
    | .ok (some rv, st1) => .ok (rv, st1)
    | .ok (none, st1) => runBody fuel st1 rest

/-- `Interpreter::execute`. -/
def execute : Nat → InterpState → Stmt → Except RtError (Option Value × InterpState)
  | 0, _, _ => .error .OutOfFuel
  | fuel + 1, st, s =>
    match s with
    | .Expr e =>
      match evaluate fuel st e with
      | .error er => .error er
      | .ok (_, st1) => .ok (none, st1)
    | .Let name init =>
      match init with
      | some e =>
        match evaluate fuel st e with
        | .error er => .error er
        | .ok (v, st1) =>
          .ok (none, { st1 with envs := defineIn st1.envs st1.current name v })
      | none =>
        .ok (none, { st with envs := defineIn st.envs st.current name (.Number 0) })
    | .Print e =>
      match evaluate fuel st e with
      | .error er => .error er
      | .ok (v, st1) => .ok (none, pushOutput st1 (value_to_string v ++ "\n"))
    | .Block stmts =>
      let (newId, envs1) := allocEnv st.envs (some st.current)
      let prev := st.current
      match execSeq fuel { st with envs := envs1, current := newId } stmts with
      | .error er => .error er
      | .ok (r, st2) => .ok (r, { st2 with current := prev })
    | .If c t eOpt =>
      match evaluate fuel st c with
      | .error er => .error er
      | .ok (cv, st1) =>
        if is_truthy cv then execute fuel st1 t
        else
          match eOpt with
          | some el => execute fuel st1 el
          | none => .ok (none, st1)
    | .While c b =>
      match evaluate fuel st c with
      | .error er => .error er
      | .ok (cv, st1) =>
        if is_truthy cv then
          match execute fuel st1 b with
          | .error er => .error er
          | .ok (some rv, st2) => .ok (some rv, st2)
          | .ok (none, st2) => execute fuel st2 (.While c b)
        else .ok (none, st1)
    | .For v iter b =>
      match evaluate fuel st iter with
      | .error er => .error er
      | .ok (itv, st1) =>
        match itv with
        | .Array arr => forIter fuel st1 v arr b
        | .Str str => forIter fuel st1 v (stringIterItems str) b
        | _ => .error .CannotIterate
    | .Function name params body =>
      let f : Func := ⟨name, params, body, st.current⟩
      .ok (none, { st with envs := defineIn st.envs st.current name (.Function f) })
    | .Return vOpt =>
      match vOpt with
      | some e =>
        match evaluate fuel st e with
        | .error er => .error er
        | .ok (v, st1) => .ok (some v, st1)
      | none => .ok (some (.Number 0), st)

/-- The statement loop of `Stmt::Block`: stop at the first propagating
return. -/
def execSeq : Nat → InterpState → List Stmt → Except RtError (Option Value × InterpState)
  | 0, _, _ => .error .OutOfFuel
  | _ + 1, st, [] => .ok (none, st)
  | fuel + 1, st, s :: rest =>
    match execute fuel st s with
    | .error er => .error er
    | .ok (some rv, st1) => .ok (some rv, st1)
    | .ok (none, st1) => execSeq fuel st1 rest

/-- The per-element loop of `Stmt::For`: each iteration runs the body in
a fresh child environment binding the loop variable, restores the
environment pointer, and propagates a return immediately. -/
def forIter : Nat → InterpState → String → List Value → Stmt →
    Except RtError (Option Value × InterpState)
  | 0, _, _, _, _ => .error .OutOfFuel
  | _ + 1, st, _, [], _ => .ok (none, st)
  | fuel + 1, st, v, item :: rest, b =>
    let (loopId, envs1) := allocEnv st.envs (some st.current)
    let envs2 := defineIn envs1 loopId v item
    let prev := st.current
    match execute fuel { st with envs := envs2, current := loopId } b with
    | .error er => .error er
    | .ok (some rv, st1) => .ok (some rv, { st1 with current := prev })
    | .ok (none, st1) => forIter fuel { st1 with current := prev } v rest b

end

/-- The initial interpreter state: `Interpreter::new` creates one global
environment (`Environment::new`) and nothing has been printed. -/
def initState : InterpState :=
  { envs := [⟨[], none⟩], current := 0, output := [] }

/-! ## Claim C1 -/

/-- C1: the claim's grammar productions do not exist in the committed
code.  Scanning source with an array literal or a dot chain already dies
with a lexical error (`scan_token` has no `[`/`]`/`.`/`:` arms); and even
handed the tokens directly, `primary` panics "Expected expression" on
`LeftBracket` and `LeftBrace`, while an index or dot chain after an
identifier is left unconsumed (the expression is just `Variable`), so the
statement dies at the semicolon check.  No `Array`/`Map`/`Index`/`Dot`
node is ever produced. -/
theorem c1_collections_unparsed :
    scan_tokens "let numbers = [1, 2, 3, 4, 5];" = .error (.UnexpectedChar '[' 1) ∧
    scan_tokens "person.age;" = .error (.UnexpectedChar '.' 1) ∧
    parse 50 [⟨.Let, (0, 3)⟩, ⟨.Identifier "a", (4, 5)⟩, ⟨.Equals, (6, 7)⟩,
        ⟨.LeftBracket, (8, 9)⟩, ⟨.Number 1, (9, 10)⟩, ⟨.RightBracket, (10, 11)⟩,
        ⟨.Semicolon, (11, 12)⟩, ⟨.EOF, (12, 12)⟩] =
      .error (.ExpectedExpression 3) ∧
    parse 50 [⟨.Let, (0, 3)⟩, ⟨.Identifier "m", (4, 5)⟩, ⟨.Equals, (6, 7)⟩,
        ⟨.LeftBrace, (8, 9)⟩, ⟨.RightBrace, (9, 10)⟩,
        ⟨.Semicolon, (10, 11)⟩, ⟨.EOF, (11, 11)⟩] =
      .error (.ExpectedExpression 3) ∧
    expression 50 [⟨.Identifier "a", (0, 1)⟩, ⟨.LeftBracket, (1, 2)⟩, ⟨.Number 0, (2, 3)⟩,
        ⟨.RightBracket, (3, 4)⟩, ⟨.Semicolon, (4, 5)⟩, ⟨.EOF, (5, 5)⟩] 0 =
      .ok (.Variable "a", 1) ∧
    expression 50 [⟨.Identifier "a", (0, 1)⟩, ⟨.Dot, (1, 2)⟩, ⟨.Identifier "b", (2, 3)⟩,
        ⟨.Semicolon, (3, 4)⟩, ⟨.EOF, (4, 4)⟩] 0 =
      .ok (.Variable "a", 1) ∧
    expression_statement 50 [⟨.Identifier "a", (0, 1)⟩, ⟨.LeftBracket, (1, 2)⟩,
        ⟨.Number 0, (2, 3)⟩, ⟨.RightBracket, (3, 4)⟩, ⟨.Semicolon, (4, 5)⟩,
        ⟨.EOF, (5, 5)⟩] 0 =
      .error (.ConsumeFail "Expected ';' after expression") :=
  ⟨rfl, rfl, rfl, rfl, rfl, rfl, rfl⟩

/-! ## Claim C2 -/

/-- C2: of the thirteen reserved words the claim lists, eleven scan to
their keyword tokens, but the keyword table in `scan_token` has no
entries for `for` and `in`: both scan to generic `Identifier` tokens,
not `Token::For`/`Token::In`. -/
theorem c2_for_in_not_keywords :
    scan_tokens "let" = .ok [⟨.Let, (0, 3)⟩, ⟨.EOF, (3, 3)⟩] ∧
    scan_tokens "print" = .ok [⟨.Print, (0, 5)⟩, ⟨.EOF, (5, 5)⟩] ∧
    scan_tokens "if" = .ok [⟨.If, (0, 2)⟩, ⟨.EOF, (2, 2)⟩] ∧
    scan_tokens "else" = .ok [⟨.Else, (0, 4)⟩, ⟨.EOF, (4, 4)⟩] ∧
    scan_tokens "while" = .ok [⟨.While, (0, 5)⟩, ⟨.EOF, (5, 5)⟩] ∧
    scan_tokens "fn" = .ok [⟨.Fn, (0, 2)⟩, ⟨.EOF, (2, 2)⟩] ∧
    scan_tokens "return" = .ok [⟨.Return, (0, 6)⟩, ⟨.EOF, (6, 6)⟩] ∧
    scan_tokens "true" = .ok [⟨.True, (0, 4)⟩, ⟨.EOF, (4, 4)⟩] ∧
    scan_tokens "false" = .ok [⟨.False, (0, 5)⟩, ⟨.EOF, (5, 5)⟩] ∧
    scan_tokens "and" = .ok [⟨.And, (0, 3)⟩, ⟨.EOF, (3, 3)⟩] ∧
    scan_tokens "or" = .ok [⟨.Or, (0, 2)⟩, ⟨.EOF, (2, 2)⟩] ∧
    scan_tokens "for" = .ok [⟨.Identifier "for", (0, 3)⟩, ⟨.EOF, (3, 3)⟩] ∧
    scan_tokens "in" = .ok [⟨.Identifier "in", (0, 2)⟩, ⟨.EOF, (2, 2)⟩] :=
  ⟨rfl, rfl, rfl, rfl, rfl, rfl, rfl, rfl, rfl, rfl, rfl, rfl, rfl⟩

/-! ## Claim C3 -/

/-- C3 counterexample: the claim says `Number + String` (String on the
right) is a fatal type error, but `add_values` has a second branch for a
`String` on the right and concatenates: `1 + "x"` yields the String
`"1x"`, not an error. -/
theorem c3_number_plus_string_concatenates :
    add_values (.Number 1) (.Str "x") = .ok (.Str "1x") :=
  rfl

/-- C3 (amended): `+` is Number addition on two Numbers; a String on the
left concatenates with the rendering of the right side; otherwise a
String on the right concatenates the rendering of the left side with it;
two Arrays append; every remaining combination is a fatal type error. -/
theorem c3_add_values_cases (l r : Value) :
    (∀ s, l = .Str s → add_values l r = .ok (.Str (s ++ value_to_string r))) ∧
    ((∀ s, l ≠ .Str s) → ∀ s, r = .Str s →
      add_values l r = .ok (.Str (value_to_string l ++ s))) ∧
    (∀ a b, l = .Array a → r = .Array b → add_values l r = .ok (.Array (a ++ b))) ∧
    (∀ a b, l = .Number a → r = .Number b → add_values l r = .ok (.Number (a + b))) ∧
    ((∀ s, l ≠ .Str s) → (∀ s, r ≠ .Str s) →
      (∀ a b, ¬(l = .Array a ∧ r = .Array b)) →
      (∀ a b, ¬(l = .Number a ∧ r = .Number b)) →
      add_values l r = .error .CannotAdd) := by
  cases l <;> cases r <;> simp_all [add_values]

/-- C3 witness: the amended theorem applied at concrete inputs covering
a left String, a right String, two Arrays, two Numbers, and an erroring
pair. -/
theorem c3_add_values_cases_witness :
    add_values (.Str "n: ") (.Number 3) = .ok (.Str "n: 3") ∧
    add_values (.Array [.Number 1]) (.Str "!") = .ok (.Str "[1]!") ∧
    add_values (.Array [.Number 1]) (.Array [.Number 2]) =
      .ok (.Array [.Number 1, .Number 2]) ∧
    add_values (.Number 2) (.Number 3) = .ok (.Number 5) ∧
    add_values (.Boolean true) (.Number 1) = .error .CannotAdd :=
  ⟨(c3_add_values_cases (.Str "n: ") (.Number 3)).1 "n: " rfl,
   (c3_add_values_cases (.Array [.Number 1]) (.Str "!")).2.1 (by intro s h; cases h) "!" rfl,
   (c3_add_values_cases (.Array [.Number 1]) (.Array [.Number 2])).2.2.1 _ _ rfl rfl,
   (c3_add_values_cases (.Number 2) (.Number 3)).2.2.2.1 _ _ rfl rfl,
   (c3_add_values_cases (.Boolean true) (.Number 1)).2.2.2.2
     (by intro s h; cases h) (by intro s h; cases h)
     (by intro a b h; cases h.1) (by intro a b h; cases h.1)⟩

/-! ## Claim C5 -/

/-- C5: an Array indexed by a Number in `[0, len)` yields the element at
that position; an index at or past the length is a fatal error, and a
negative index (within the `i64` range, against any array of realistic
size) wraps to a huge unsigned offset and is likewise a fatal error; a
Map indexed by a String yields the stored value for a present key and
`Number 0` for a missing key; a dot-field read on a Map yields
`Number 0` for a missing field. -/
theorem c5_index_and_field_reads :
    (∀ (arr : List Value) (i : Nat), i < arr.length → i < 2 ^ 63 →
      indexRead (.Array arr) (.Number (i : Int)) = .ok (arr.getD i (.Number 0))) ∧
    (∀ (arr : List Value) (i : Int), arr.length ≤ usizeOfI64 i →
      indexRead (.Array arr) (.Number i) = .error (.IndexOutOfBounds (usizeOfI64 i))) ∧
    (∀ (arr : List Value) (i : Int), i < 0 → -(2 ^ 63) ≤ i → arr.length ≤ 2 ^ 63 →
      indexRead (.Array arr) (.Number i) = .error (.IndexOutOfBounds (usizeOfI64 i))) ∧
    (∀ m key v, lookupEntry m key = some v → indexRead (.Map m) (.Str key) = .ok v) ∧
    (∀ m key, lookupEntry m key = none → indexRead (.Map m) (.Str key) = .ok (.Number 0)) ∧
    (∀ m field, lookupEntry m field = none → dotRead (.Map m) field = .ok (.Number 0)) := by
  refine ⟨?_, ?_, ?_, ?_, ?_, ?_⟩
  · intro arr i hlt hsmall
    have hu : usizeOfI64 (i : Int) = i := by
      unfold usizeOfI64
      omega
    simp only [indexRead, hu]
    rw [if_neg (by omega)]
  · intro arr i h
    simp only [indexRead]
    rw [if_pos h]
  · intro arr i hneg hlo hlen
    have h : arr.length ≤ usizeOfI64 i := by
      unfold usizeOfI64
      omega
    simp only [indexRead]
    rw [if_pos h]
  · intro m key v h
    simp [indexRead, h]
  · intro m key h
    simp [indexRead, h]
  · intro m field h
    simp [dotRead, h]

/-- C5 witness: the theorem applied at concrete inputs covering an
in-bounds read, an out-of-bounds read, a negative index, a present map
key, a missing map key, and a missing dot field. -/
theorem c5_index_and_field_reads_witness :
    indexRead (.Array [.Number 7, .Number 8]) (.Number 1) = .ok (.Number 8) ∧
    indexRead (.Array [.Number 7]) (.Number 5) = .error (.IndexOutOfBounds 5) ∧
    indexRead (.Array [.Number 7]) (.Number (-1)) =
      .error (.IndexOutOfBounds 18446744073709551615) ∧
    indexRead (.Map [("k", .Number 9)]) (.Str "k") = .ok (.Number 9) ∧
    indexRead (.Map [("k", .Number 9)]) (.Str "zz") = .ok (.Number 0) ∧
    dotRead (.Map [("k", .Number 9)]) "age" = .ok (.Number 0) :=
  ⟨c5_index_and_field_reads.1 [.Number 7, .Number 8] 1 (by norm_num) (by norm_num),
   c5_index_and_field_reads.2.1 [.Number 7] 5 (by norm_num [usizeOfI64]),
   c5_index_and_field_reads.2.2.1 [.Number 7] (-1) (by norm_num) (by norm_num) (by norm_num),
   c5_index_and_field_reads.2.2.2.1 _ "k" _ rfl,
   c5_index_and_field_reads.2.2.2.2.1 _ "zz" rfl,
   c5_index_and_field_reads.2.2.2.2.2 _ "age" rfl⟩

/-! ## Claim C6 -/

/-- C6: dividing a Number by Number 0, indexing an Array out of bounds,
and applying a non-`Function` value each end evaluation with a runtime
error, never a value. -/
theorem c6_fatal_runtime_errors :
    (∀ a : Int, divide_values (.Number a) (.Number 0) = .error .DivisionByZero) ∧
    (∀ (arr : List Value) (i : Int), arr.length ≤ usizeOfI64 i →
      indexRead (.Array arr) (.Number i) = .error (.IndexOutOfBounds (usizeOfI64 i))) ∧
    (∀ (fuel : Nat) (st : InterpState) (v : Value) (args : List Expr),
      (∀ f, v ≠ .Function f) →
      applyFunction (fuel + 1) st v args = .error .NotCallable) := by
  refine ⟨?_, ?_, ?_⟩
  · intro a
    simp [divide_values]
  · intro arr i h
    simp only [indexRead]
    rw [if_pos h]
  · intro fuel st v args h
    cases v <;> simp [applyFunction]
    exact absurd rfl (h _)

/-- C6 witness: the theorem applied at a concrete division by zero, a
concrete out-of-bounds index, and a concrete call of a Number. -/
theorem c6_fatal_runtime_errors_witness :
    divide_values (.Number 7) (.Number 0) = .error .DivisionByZero ∧
    indexRead (.Array []) (.Number 0) = .error (.IndexOutOfBounds 0) ∧
    applyFunction 1 initState (.Number 3) [] = .error .NotCallable :=
  ⟨c6_fatal_runtime_errors.1 7,
   c6_fatal_runtime_errors.2.1 [] 0 (by norm_num [usizeOfI64]),
   c6_fatal_runtime_errors.2.2 0 initState (.Number 3) [] (by intro f h; cases h)⟩

/-! ## Claim C9 -/

/-- C9: `and` short-circuits to `Boolean false` (not the left value)
when the left operand is falsy and otherwise is exactly the evaluation
of the right operand; `or` short-circuits to `Boolean true` when the
left operand is truthy and otherwise is exactly the evaluation of the
right operand.  The short-circuit results do not depend on the right
operand expression at all. -/
theorem c9_logical_short_circuit (fuel : Nat) (st : InterpState) (l r : Expr)
    (lv : Value) (st1 : InterpState) (h : evaluate fuel st l = .ok (lv, st1)) :
    (is_truthy lv = false →
      evaluate (fuel + 1) st (.Logical l .And r) = .ok (.Boolean false, st1) ∧
      evaluate (fuel + 1) st (.Logical l .Or r) = evaluate fuel st1 r) ∧
    (is_truthy lv = true →
      evaluate (fuel + 1) st (.Logical l .And r) = evaluate fuel st1 r ∧
      evaluate (fuel + 1) st (.Logical l .Or r) = .ok (.Boolean true, st1)) := by
  constructor <;> intro ht <;> constructor <;> simp [evaluate, h, ht]

/-- C9 witness: the theorem applied with a falsy and a truthy concrete
left operand; in particular `0 and x` is `Boolean false` and `1 or x` is
`Boolean true` even though `x` is an undefined variable whose evaluation
would be a runtime error. -/
theorem c9_logical_short_circuit_witness :
    evaluate 2 initState (.Logical (.Number 0) .And (.Variable "x")) =
      .ok (.Boolean false, initState) ∧
    evaluate 2 initState (.Logical (.Number 1) .Or (.Variable "x")) =
      .ok (.Boolean true, initState) ∧
    evaluate 2 initState (.Logical (.Number 1) .And (.Number 7)) =
      .ok (.Number 7, initState) :=
  ⟨((c9_logical_short_circuit 1 initState (.Number 0) (.Variable "x")
      (.Number 0) initState rfl).1 rfl).1,
   ((c9_logical_short_circuit 1 initState (.Number 1) (.Variable "x")
      (.Number 1) initState rfl).2 rfl).2,
   (((c9_logical_short_circuit 1 initState (.Number 1) (.Number 7)
      (.Number 1) initState rfl).2 rfl).1).trans rfl⟩

/-! ## Claim C7 -/

/-- The synchronization loop stops at the first position after its start
that is at the end of input, just after a `Semicolon`, or at a token of
the synchronization set — and at no earlier position. -/
theorem syncLoop_props (fuel : Nat) : ∀ (tokens : List TokenWithSpan) (p : Nat),
    tokens.length ≤ p + fuel →
    p ≤ syncLoop fuel tokens p ∧
    (is_at_end tokens (syncLoop fuel tokens p) = true ∨
     tokenAt tokens (syncLoop fuel tokens p - 1) = .Semicolon ∨
     stopToken (tokenAt tokens (syncLoop fuel tokens p)) = true) ∧
    (∀ k, p ≤ k → k < syncLoop fuel tokens p →
      is_at_end tokens k = false ∧ tokenAt tokens (k - 1) ≠ .Semicolon ∧
      stopToken (tokenAt tokens k) = false) := by
  induction fuel with
  | zero =>
    intro tokens p hf
    have hend : is_at_end tokens p = true := by
      simp [is_at_end]
      omega
    refine ⟨le_refl _, Or.inl ?_, ?_⟩
    · simpa [syncLoop] using hend
    · intro k h1 h2
      simp [syncLoop] at h2
      omega
  | succ n ihn =>
    intro tokens p hf
    by_cases hend : is_at_end tokens p = true
    · refine ⟨?_, Or.inl ?_, ?_⟩ <;> simp [syncLoop, hend]
      omega
    · rw [Bool.not_eq_true] at hend
      by_cases hsemi : tokenAt tokens (p - 1) = Token.Semicolon
      · refine ⟨?_, Or.inr (Or.inl ?_), ?_⟩ <;> simp [syncLoop, hend, hsemi]
        omega
      · by_cases hstop : stopToken (tokenAt tokens p) = true
        · refine ⟨?_, Or.inr (Or.inr ?_), ?_⟩ <;> simp [syncLoop, hend, hsemi, hstop]
          omega
        · rw [Bool.not_eq_true] at hstop
          have hrec : syncLoop (n + 1) tokens p = syncLoop n tokens (p + 1) := by
            simp [syncLoop, hend, hsemi, hstop]
          have hf' : tokens.length ≤ (p + 1) + n := by omega
          obtain ⟨ih1, ih2, ih3⟩ := ihn tokens (p + 1) hf'
          rw [hrec]
          refine ⟨by omega, ih2, ?_⟩
          intro k h1 h2
          rcases Nat.eq_or_lt_of_le h1 with heq | hlt
          · subst heq
            exact ⟨hend, hsemi, hstop⟩
          · exact ih3 k hlt h2

/-- C7 counterexample: the claim's synchronization set includes `fn`,
but `Parser::synchronize` does not stop at a `Fn` token: starting after
an offending token at position 0, with `Fn` at position 1 and `Let` at
position 2, it stops at 2 (the `Let`), not at 1 as the claim requires.
Moreover the claim's "recovery … and then continues parsing" applies
only to a `let` missing its variable name: every other fatal error
panics the whole parse — here a malformed `print` aborts parsing even
though well-formed declarations follow. -/
theorem c7_fn_not_in_sync_set :
    stopToken .Fn = false ∧
    synchronize 5 [⟨.Bang, (0, 1)⟩, ⟨.Fn, (1, 2)⟩, ⟨.Let, (2, 3)⟩, ⟨.EOF, (3, 3)⟩] 0 = 2 ∧
    synchronize 5 [⟨.Bang, (0, 1)⟩, ⟨.Fn, (1, 2)⟩, ⟨.Let, (2, 3)⟩, ⟨.EOF, (3, 3)⟩] 0 ≠ 1 ∧
    parse 50 [⟨.Print, (0, 5)⟩, ⟨.Semicolon, (5, 6)⟩, ⟨.Let, (7, 10)⟩,
        ⟨.Identifier "x", (11, 12)⟩, ⟨.Equals, (13, 14)⟩, ⟨.Number 1, (15, 16)⟩,
        ⟨.Semicolon, (16, 17)⟩, ⟨.EOF, (17, 17)⟩] =
      .error (.ExpectedExpression 1) :=
  ⟨rfl, rfl, by decide, rfl⟩

/-- C7 (amended): when the parser's recovery runs (which happens exactly
for a `let` not followed by an identifier — the only error
`declaration` catches; all other fatal errors abort the parse), it
discards at least the offending token and then stops at the first
position that is at end of input, just past a `Semicolon`, or at a
token of the synchronization set, which is exactly `let`, `print`,
`if`, `while` — `fn` is not in it. -/
theorem c7_synchronize_boundary (tokens : List TokenWithSpan) (current : Nat)
    (h : is_at_end tokens current = false) :
    current < synchronize (tokens.length + 1) tokens current ∧
    (is_at_end tokens (synchronize (tokens.length + 1) tokens current) = true ∨
     tokenAt tokens (synchronize (tokens.length + 1) tokens current - 1) = .Semicolon ∨
     stopToken (tokenAt tokens (synchronize (tokens.length + 1) tokens current)) = true) ∧
    (∀ k, current < k → k < synchronize (tokens.length + 1) tokens current →
      is_at_end tokens k = false ∧ tokenAt tokens (k - 1) ≠ .Semicolon ∧
      stopToken (tokenAt tokens k) = false) ∧
    (∀ (fuel c : Nat) (tokens2 : List TokenWithSpan),
      is_at_end tokens2 c = false → tokenAt tokens2 c = .Let →
      (∀ s, tokenAt tokens2 (c + 1) ≠ .Identifier s) →
      declaration (fuel + 2) tokens2 c =
        .ok (none, synchronize (tokens2.length + 1) tokens2 (c + 1))) := by
  have hadv : synchronize (tokens.length + 1) tokens current =
      syncLoop (tokens.length + 1) tokens (current + 1) := by
    simp [synchronize, advance, h]
  obtain ⟨p1, p2, p3⟩ :=
    syncLoop_props (tokens.length + 1) tokens (current + 1) (by omega)
  refine ⟨?_, by rw [hadv]; exact p2, ?_, ?_⟩
  · rw [hadv]
    omega
  · intro k h1 h2
    rw [hadv] at h2
    exact p3 k (by omega) h2
  · intro fuel c tokens2 hend hlet hnoid
    have hchk : check tokens2 c .Let = true := by
      simp [check, hend, hlet]
    have hm : matchesTok tokens2 c [Token.Let] = (true, c + 1) := by
      simp [matchesTok, hchk, advance, hend]
    have hci : consume_identifier tokens2 (c + 1) = none := by
      unfold consume_identifier
      cases hT : tokenAt tokens2 (c + 1) <;> simp_all
    simp [declaration, hm, let_declaration, hci]

/-- C7 witness: the boundary theorem applied to the concrete token list
`Bang Fn Let EOF` from position 0: synchronization stops at position 2,
position 1 (the `Fn`) is strictly inside the discarded range with
`stopToken Fn = false`, and the stop is at the `Let`; plus the
`declaration` recovery equation at a concrete `let 1;`. -/
theorem c7_synchronize_boundary_witness :
    0 < synchronize 5 [⟨.Bang, (0, 1)⟩, ⟨.Fn, (1, 2)⟩, ⟨.Let, (2, 3)⟩, ⟨.EOF, (3, 3)⟩] 0 ∧
    (is_at_end [⟨.Bang, (0, 1)⟩, ⟨.Fn, (1, 2)⟩, ⟨.Let, (2, 3)⟩, ⟨.EOF, (3, 3)⟩]
        (synchronize 5 [⟨.Bang, (0, 1)⟩, ⟨.Fn, (1, 2)⟩, ⟨.Let, (2, 3)⟩, ⟨.EOF, (3, 3)⟩] 0) = true ∨
     tokenAt [⟨.Bang, (0, 1)⟩, ⟨.Fn, (1, 2)⟩, ⟨.Let, (2, 3)⟩, ⟨.EOF, (3, 3)⟩]
        (synchronize 5 [⟨.Bang, (0, 1)⟩, ⟨.Fn, (1, 2)⟩, ⟨.Let, (2, 3)⟩, ⟨.EOF, (3, 3)⟩] 0 - 1) = .Semicolon ∨
     stopToken (tokenAt [⟨.Bang, (0, 1)⟩, ⟨.Fn, (1, 2)⟩, ⟨.Let, (2, 3)⟩, ⟨.EOF, (3, 3)⟩]
        (synchronize 5 [⟨.Bang, (0, 1)⟩, ⟨.Fn, (1, 2)⟩, ⟨.Let, (2, 3)⟩, ⟨.EOF, (3, 3)⟩] 0)) = true) ∧
    (is_at_end [⟨.Bang, (0, 1)⟩, ⟨.Fn, (1, 2)⟩, ⟨.Let, (2, 3)⟩, ⟨.EOF, (3, 3)⟩] 1 = false ∧
     tokenAt [⟨.Bang, (0, 1)⟩, ⟨.Fn, (1, 2)⟩, ⟨.Let, (2, 3)⟩, ⟨.EOF, (3, 3)⟩] 0 ≠ .Semicolon ∧
     stopToken (tokenAt [⟨.Bang, (0, 1)⟩, ⟨.Fn, (1, 2)⟩, ⟨.Let, (2, 3)⟩, ⟨.EOF, (3, 3)⟩] 1) = false) ∧
    declaration 5 [⟨.Let, (0, 3)⟩, ⟨.Number 1, (4, 5)⟩, ⟨.Semicolon, (5, 6)⟩, ⟨.EOF, (6, 6)⟩] 0 =
      .ok (none, synchronize 5 [⟨.Let, (0, 3)⟩, ⟨.Number 1, (4, 5)⟩, ⟨.Semicolon, (5, 6)⟩, ⟨.EOF, (6, 6)⟩] 1) := by
  obtain ⟨w1, w2, w3, w4⟩ :=
    c7_synchronize_boundary
      [⟨.Bang, (0, 1)⟩, ⟨.Fn, (1, 2)⟩, ⟨.Let, (2, 3)⟩, ⟨.EOF, (3, 3)⟩] 0 rfl
  exact ⟨w1, w2, w3 1 (by decide) (by decide),
    w4 3 0 [⟨.Let, (0, 3)⟩, ⟨.Number 1, (4, 5)⟩, ⟨.Semicolon, (5, 6)⟩, ⟨.EOF, (6, 6)⟩]
      rfl rfl (by intro s hs; cases hs)⟩

/-! ## Claim C8 -/

/-- The ASCII identifier character class `[A-Za-z0-9_]` of the claim's
regular expression (claim-side definition, for comparison with the
code's Unicode-alphanumeric continuation class). -/
def isAsciiIdentChar (c : Char) : Bool :=
  ('A' ≤ c && c ≤ 'Z') || ('a' ≤ c && c ≤ 'z') || ('0' ≤ c && c ≤ '9') || c = '_'

/-- The identifier-lexeme shape actually guaranteed by the scanner: a
first character that is an ASCII letter or underscore, and continuation
characters that are Rust-alphanumeric (Unicode, modelled on Latin-1) or
underscores. -/
def identShape (text : String) : Bool :=
  match text.data with
  | [] => false
  | c :: rest => isIdentStart c && rest.all isIdentCont

/-- A lexeme the keyword table maps to `Identifier` is returned
unchanged. -/
theorem keywordOrIdentifier_ident (tv text : String)
    (hk : keywordOrIdentifier tv = .Identifier text) : tv = text := by
  unfold keywordOrIdentifier at hk
  by_cases k1 : tv = "let"
  · rw [if_pos k1] at hk; exact Token.noConfusion hk
  rw [if_neg k1] at hk
  by_cases k2 : tv = "print"
  · rw [if_pos k2] at hk; exact Token.noConfusion hk
  rw [if_neg k2] at hk
  by_cases k3 : tv = "if"
  · rw [if_pos k3] at hk; exact Token.noConfusion hk
  rw [if_neg k3] at hk
  by_cases k4 : tv = "else"
  · rw [if_pos k4] at hk; exact Token.noConfusion hk
  rw [if_neg k4] at hk
  by_cases k5 : tv = "while"
  · rw [if_pos k5] at hk; exact Token.noConfusion hk
  rw [if_neg k5] at hk
  by_cases k6 : tv = "true"
  · rw [if_pos k6] at hk; exact Token.noConfusion hk
  rw [if_neg k6] at hk
  by_cases k7 : tv = "false"
  · rw [if_pos k7] at hk; exact Token.noConfusion hk
  rw [if_neg k7] at hk
  by_cases k8 : tv = "and"
  · rw [if_pos k8] at hk; exact Token.noConfusion hk
  rw [if_neg k8] at hk
  by_cases k9 : tv = "or"
  · rw [if_pos k9] at hk; exact Token.noConfusion hk
  rw [if_neg k9] at hk
  by_cases k10 : tv = "fn"
  · rw [if_pos k10] at hk; exact Token.noConfusion hk
  rw [if_neg k10] at hk
  by_cases k11 : tv = "return"
  · rw [if_pos k11] at hk; exact Token.noConfusion hk
  rw [if_neg k11] at hk
  injection hk

/-- Any `Identifier` token produced by one `scan_token` step has the
identifier-lexeme shape. -/
theorem scanTokenAux_identifier_shape (source : List Char) (start line : Nat) (c : Char)
    (text : String) (c' l' : Nat)
    (h : scanTokenAux source start line c = .ok (some (.Identifier text), c', l')) :
    identShape text = true := by
  unfold scanTokenAux at h
  by_cases h1 : c = '"'
  · rw [if_pos h1] at h; dsimp only at h; split at h <;> simp at h
  rw [if_neg h1] at h
  by_cases h2 : c = '+'
  · rw [if_pos h2] at h; simp at h
  rw [if_neg h2] at h
  by_cases h3 : c = '-'
  · rw [if_pos h3] at h; simp at h
  rw [if_neg h3] at h
  by_cases h4 : c = '*'
  · rw [if_pos h4] at h; simp at h
  rw [if_neg h4] at h
  by_cases h5 : c = '/'
  · rw [if_pos h5] at h; split at h <;> simp at h
  rw [if_neg h5] at h
  by_cases h6 : c = '('
  · rw [if_pos h6] at h; simp at h
  rw [if_neg h6] at h
  by_cases h7 : c = ')'
  · rw [if_pos h7] at h; simp at h
  rw [if_neg h7] at h
  by_cases h8 : c = '{'
  · rw [if_pos h8] at h; simp at h
  rw [if_neg h8] at h
  by_cases h9 : c = '}'
  · rw [if_pos h9] at h; simp at h
  rw [if_neg h9] at h
  by_cases h10 : c = ';'
  · rw [if_pos h10] at h; simp at h
  rw [if_neg h10] at h
  by_cases h11 : c = ','
  · rw [if_pos h11] at h; simp at h
  rw [if_neg h11] at h
  by_cases h12 : c = '!'
  · rw [if_pos h12] at h; split at h <;> simp at h
  rw [if_neg h12] at h
  by_cases h13 : c = '='
  · rw [if_pos h13] at h; split at h <;> simp at h
  rw [if_neg h13] at h
  by_cases h14 : c = '>'
  · rw [if_pos h14] at h; split at h <;> simp at h
  rw [if_neg h14] at h
  by_cases h15 : c = '<'
  · rw [if_pos h15] at h; split at h <;> simp at h
  rw [if_neg h15] at h
  by_cases h16 : c = ' ' || c = '\t' || c = '\r'
  · rw [if_pos h16] at h; simp at h
  rw [if_neg h16] at h
  by_cases h17 : c = '\n'
  · rw [if_pos h17] at h; simp at h
  rw [if_neg h17] at h
  by_cases h18 : c.isDigit
  · rw [if_pos h18] at h; dsimp only at h; split at h <;> simp at h
  rw [if_neg h18] at h
  by_cases h19 : isIdentStart c = true
  · rw [if_pos h19] at h
    simp only [Except.ok.injEq, Option.some.injEq, Prod.mk.injEq] at h
    obtain ⟨hk, _, _⟩ := h
    have he := keywordOrIdentifier_ident _ _ hk
    rw [← he]
    simp only [identShape, String.mk, h19, Bool.true_and]
    rw [List.all_eq_true]
    intro ch hch
    exact List.mem_takeWhile_imp hch
  · rw [if_neg h19] at h; simp at h

/-- Lifts the shape property through the `scan_tokens` loop. -/
theorem scanLoop_identifier_shape (fuel : Nat) :
    ∀ (source : List Char) (current line : Nat) (toks : List TokenWithSpan),
    scanLoop fuel source current line = .ok toks →
    ∀ ts ∈ toks, ∀ text, ts.token = .Identifier text → identShape text = true := by
  induction fuel with
  | zero => intro source current line toks h; cases h
  | succ n ih =>
    intro source current line toks h ts hts text htok
    simp only [scanLoop] at h
    split at h
    · injection h with h'
      subst h'
      rw [List.mem_singleton] at hts
      subst hts
      exact Token.noConfusion htok
    · split at h
      · exact Except.noConfusion h
      · rename_i tokOpt current' line' heq
        split at h
        · exact Except.noConfusion h
        · rename_i rest heq2
          cases tokOpt with
          | some t =>
            injection h with h'
            subst h'
            rcases List.mem_cons.mp hts with hh | hh
            · subst hh
              simp only at htok
              subst htok
              unfold scanToken at heq
              split at heq
              · exact Except.noConfusion heq
              · exact scanTokenAux_identifier_shape _ _ _ _ _ _ _ heq
            · exact ih source current' line' rest heq2 ts hh text htok
          | none =>
            injection h with h'
            subst h'
            exact ih source current' line' _ heq2 ts hts text htok

/-- C8 counterexample: the claim says every character of an `Identifier`
lexeme lies in the ASCII class `[A-Za-z0-9_]`, but the scanner's
continuation test is Rust's Unicode `char::is_alphanumeric`: the source
`aé` scans to the single identifier lexeme `aé`, whose second character
`é` (U+00E9) is outside that ASCII class. -/
theorem c8_non_ascii_in_identifier :
    scan_tokens "aé" = .ok [⟨.Identifier "aé", (0, 2)⟩, ⟨.EOF, (2, 2)⟩] ∧
    String.data "aé" = ['a', 'é'] ∧
    isAsciiIdentChar 'é' = false :=
  ⟨rfl, rfl, by decide⟩

/-- C8 (amended): every `Identifier` token the scanner produces has a
lexeme whose first character is an ASCII letter or underscore and whose
continuation characters each satisfy Rust's Unicode `is_alphanumeric`
(modelled exactly on the Latin-1 range) or are underscores; the ASCII
class of the claim bounds the first character but not the continuation
characters. -/
theorem c8_identifier_charset (src : String) (toks : List TokenWithSpan)
    (h : scan_tokens src = .ok toks) :
    ∀ ts ∈ toks, ∀ text, ts.token = .Identifier text → identShape text = true :=
  fun ts hts text htok =>
    scanLoop_identifier_shape _ _ _ _ _ h ts hts text htok

/-- C8 witness: the amended theorem applied to the scan of `aé`, whose
identifier token has lexeme shape `identShape "aé" = true` — ASCII
start `a`, Unicode-alphanumeric continuation `é`. -/
theorem c8_identifier_charset_witness : identShape "aé" = true :=
  c8_identifier_charset "aé" [⟨.Identifier "aé", (0, 2)⟩, ⟨.EOF, (2, 2)⟩] rfl
    ⟨.Identifier "aé", (0, 2)⟩ (List.mem_cons_self _ _) "aé" rfl

/-! ## Claim C10 -/

/-- `String.utf8ByteSize` is the sum of the UTF-8 sizes of the string's
characters. -/
theorem utf8ByteSize_eq_sum (s : String) :
    s.utf8ByteSize = (s.data.map Char.utf8Size).sum := by
  cases s with
  | mk l =>
    induction l with
    | nil => rfl
    | cons c cs ih =>
      simp [String.utf8ByteSize, String.utf8ByteSize.go] at ih ⊢
      omega

/-- A character at or above U+0080 occupies at least two UTF-8 bytes. -/
theorem two_le_utf8Size (c : Char) (h : 128 ≤ c.toNat) : 2 ≤ c.utf8Size := by
  unfold Char.utf8Size
  simp only []
  split_ifs with h1 h2 h3 <;> try omega
  exfalso
  have h1' : c.val.toNat ≤ 127 := h1
  have hct : c.toNat = c.val.toNat := rfl
  omega

/-- Every character occupies at least one UTF-8 byte, so a string has at
least as many bytes as characters. -/
theorem length_le_utf8Sum (l : List Char) : l.length ≤ (l.map Char.utf8Size).sum := by
  induction l with
  | nil => simp
  | cons c cs ih =>
    simp only [List.length_cons, List.map_cons, List.sum_cons]
    have := Char.utf8Size_pos c
    omega

/-- A character list containing a non-ASCII character has strictly more
UTF-8 bytes than characters. -/
theorem length_lt_utf8Sum (l : List Char) (c : Char) (hc : c ∈ l) (h : 128 ≤ c.toNat) :
    l.length < (l.map Char.utf8Size).sum := by
  induction l with
  | nil => cases hc
  | cons x xs ih =>
    simp only [List.length_cons, List.map_cons, List.sum_cons]
    rcases List.mem_cons.mp hc with rfl | hmem
    · have h2 := two_le_utf8Size c h
      have h3 := length_le_utf8Sum xs
      omega
    · have h2 := ih hmem
      have h3 := Char.utf8Size_pos x
      omega

/-- C10: `len` on a String returns its UTF-8 byte count (Rust
`String::len`), while `for (c in s)` iterates once per Unicode
character (`s.chars()`), so for any String containing a character at or
above U+0080 the `len` result strictly exceeds the number of loop
iterations. -/
theorem c10_len_bytes_vs_for_chars (s : String) (h : ∃ c ∈ s.data, 128 ≤ c.toNat) :
    lenValue (.Str s) = .ok (.Number (Int.ofNat s.utf8ByteSize)) ∧
    (stringIterItems s).length = s.data.length ∧
    (stringIterItems s).length < s.utf8ByteSize := by
  obtain ⟨c, hc, hcn⟩ := h
  refine ⟨rfl, by simp [stringIterItems], ?_⟩
  rw [utf8ByteSize_eq_sum]
  simp only [stringIterItems, List.length_map]
  exact length_lt_utf8Sum s.data c hc hcn

/-- C10 witness: for the five-character String `héllo`, `len` yields 6
(bytes) while the `for` loop performs 5 iterations. -/
theorem c10_len_bytes_vs_for_chars_witness :
    lenValue (.Str "héllo") = .ok (.Number 6) ∧
    (stringIterItems "héllo").length = 5 ∧
    (stringIterItems "héllo").length < 6 :=
  ⟨(c10_len_bytes_vs_for_chars "héllo" (by decide)).1,
   (c10_len_bytes_vs_for_chars "héllo" (by decide)).2.1,
   (c10_len_bytes_vs_for_chars "héllo" (by decide)).2.2⟩

/-! ## Claim C4 -/

set_option maxHeartbeats 1000000 in
/-- Every evaluator operation that completes normally leaves the
interpreter's current-environment pointer where it found it: blocks,
loop iterations, and calls all restore `self.environment`. -/
theorem current_preserved (fuel : Nat) :
    (∀ st e v st', evaluate fuel st e = .ok (v, st') → st'.current = st.current) ∧
    (∀ st es vs st', evalList fuel st es = .ok (vs, st') → st'.current = st.current) ∧
    (∀ st ps acc m st', evalPairs fuel st ps acc = .ok (m, st') → st'.current = st.current) ∧
    (∀ st es st', printEach fuel st es = .ok st' → st'.current = st.current) ∧
    (∀ st callee args v st', call_user_function fuel st callee args = .ok (v, st') →
      st'.current = st.current) ∧
    (∀ st cv args v st', applyFunction fuel st cv args = .ok (v, st') →
      st'.current = st.current) ∧
    (∀ st body v st', runBody fuel st body = .ok (v, st') → st'.current = st.current) ∧
    (∀ st s r st', execute fuel st s = .ok (r, st') → st'.current = st.current) ∧
    (∀ st ss r st', execSeq fuel st ss = .ok (r, st') → st'.current = st.current) ∧
    (∀ st vn items b r st', forIter fuel st vn items b = .ok (r, st') →
      st'.current = st.current) := by
  induction fuel with
  | zero =>
    refine ⟨?_, ?_, ?_, ?_, ?_, ?_, ?_, ?_, ?_, ?_⟩ <;> intros <;> rename_i h <;>
      simp only [evaluate, evalList, evalPairs, printEach, call_user_function,
        applyFunction, runBody, execute, execSeq, forIter] at h <;>
      exact Except.noConfusion h
  | succ n ih =>
    obtain ⟨ihEval, ihList, ihPairs, ihPrint, ihCall, ihApply, ihBody, ihExec, ihSeq, ihFor⟩ := ih
    refine ⟨?_, ?_, ?_, ?_, ?_, ?_, ?_, ?_, ?_, ?_⟩
    · -- evaluate
      intro st e v st' h
      cases e with
      | Number x => simp only [evaluate] at h; cases h; rfl
      | Str s => simp only [evaluate] at h; cases h; rfl
      | Boolean b => simp only [evaluate] at h; cases h; rfl
      | Variable name =>
        simp only [evaluate] at h
        split at h
        · cases h; rfl
        · exact Except.noConfusion h
      | Assign name e1 =>
        simp only [evaluate] at h
        split at h
        · exact Except.noConfusion h
        · rename_i v0 st1 heq1
          split at h
          · rename_i envs' heq2
            cases h
            have hx := ihEval _ _ _ _ heq1
            exact hx
          · exact Except.noConfusion h
      | Binary l op r =>
        simp only [evaluate] at h
        split at h
        · exact Except.noConfusion h
        · rename_i lv st1 heq1
          split at h
          · exact Except.noConfusion h
          · rename_i rv st2 heq2
            split at h
            · exact Except.noConfusion h
            · cases h
              exact (ihEval _ _ _ _ heq2).trans (ihEval _ _ _ _ heq1)
      | Logical l op r =>
        simp only [evaluate] at h
        split at h
        · exact Except.noConfusion h
        · rename_i lv st1 heq1
          cases op with
          | And =>
            simp only at h
            split at h
            · cases h
              exact ihEval _ _ _ _ heq1
            · exact (ihEval _ _ _ _ h).trans (ihEval _ _ _ _ heq1)
          | Or =>
            simp only at h
            split at h
            · cases h
              exact ihEval _ _ _ _ heq1
            · exact (ihEval _ _ _ _ h).trans (ihEval _ _ _ _ heq1)
      | Unary op r =>
        simp only [evaluate] at h
        split at h
        · exact Except.noConfusion h
        · rename_i rv st1 heq1
          cases op with
          | Negate =>
            simp only at h
            split at h
            · cases h
              exact ihEval _ _ _ _ heq1
            · exact Except.noConfusion h
          | Not =>
            simp only at h
            cases h
            exact ihEval _ _ _ _ heq1
      | Call callee args =>
        simp only [evaluate] at h
        split at h
        · rename_i name
          split at h
          · -- print intrinsic
            split at h
            · exact Except.noConfusion h
            · rename_i st1 heqP
              cases h
              have hx := ihPrint _ _ _ heqP
              exact hx
          · split at h
            · -- len intrinsic
              split at h
              · rename_i a
                split at h
                · exact Except.noConfusion h
                · rename_i v0 st1 heq1
                  split at h
                  · exact Except.noConfusion h
                  · cases h
                    exact ihEval _ _ _ _ heq1
              · exact Except.noConfusion h
            · exact ihCall _ _ _ _ _ h
        · exact ihCall _ _ _ _ _ h
      | Array elems =>
        simp only [evaluate] at h
        split at h
        · exact Except.noConfusion h
        · rename_i vs st1 heq1
          cases h
          exact ihList _ _ _ _ heq1
      | Map pairs =>
        simp only [evaluate] at h
        split at h
        · exact Except.noConfusion h
        · rename_i m st1 heq1
          cases h
          exact ihPairs _ _ _ _ _ heq1
      | Index obj idx =>
        simp only [evaluate] at h
        split at h
        · exact Except.noConfusion h
        · rename_i ov st1 heq1
          split at h
          · exact Except.noConfusion h
          · rename_i iv st2 heq2
            split at h
            · exact Except.noConfusion h
            · cases h
              exact (ihEval _ _ _ _ heq2).trans (ihEval _ _ _ _ heq1)
      | IndexAssign obj idx valE =>
        simp only [evaluate] at h
        split at h
        · exact Except.noConfusion h
        · rename_i ov st1 heq1
          split at h
          · exact Except.noConfusion h
          · rename_i iv st2 heq2
            split at h
            · exact Except.noConfusion h
            · rename_i vv st3 heq3
              have h3 : st3.current = st.current :=
                (ihEval _ _ _ _ heq3).trans
                  ((ihEval _ _ _ _ heq2).trans (ihEval _ _ _ _ heq1))
              split at h
              · cases h
                split
                · split
                  · exact h3
                  · exact h3
                · exact h3
              · split at h
                · exact Except.noConfusion h
                · cases h
                  split
                  · split
                    · exact h3
                    · exact h3
                  · exact h3
              · exact Except.noConfusion h
      | Dot obj field =>
        simp only [evaluate] at h
        split at h
        · exact Except.noConfusion h
        · rename_i ov st1 heq1
          split at h
          · exact Except.noConfusion h
          · cases h
            exact ihEval _ _ _ _ heq1
      | DotAssign obj field valE =>
        simp only [evaluate] at h
        split at h
        · exact Except.noConfusion h
        · rename_i ov st1 heq1
          split at h
          · exact Except.noConfusion h
          · rename_i vv st2 heq2
            have h2 : st2.current = st.current :=
              (ihEval _ _ _ _ heq2).trans (ihEval _ _ _ _ heq1)
            split at h
            · cases h
              split
              · split
                · exact h2
                · exact h2
              · exact h2
            · exact Except.noConfusion h
    · -- evalList
      intro st es vs st' h
      cases es with
      | nil => simp only [evalList] at h; cases h; rfl
      | cons e rest =>
        simp only [evalList] at h
        split at h
        · exact Except.noConfusion h
        · rename_i v0 st1 heq1
          split at h
          · exact Except.noConfusion h
          · rename_i vs1 st2 heq2
            cases h
            exact (ihList _ _ _ _ heq2).trans (ihEval _ _ _ _ heq1)
    · -- evalPairs
      intro st ps acc m st' h
      cases ps with
      | nil => simp only [evalPairs] at h; cases h; rfl
      | cons p rest =>
        obtain ⟨k, e⟩ := p
        simp only [evalPairs] at h
        split at h
        · exact Except.noConfusion h
        · rename_i v0 st1 heq1
          have h1 := ihPairs _ _ _ _ _ h
          have h2 := ihEval _ _ _ _ heq1
          exact h1.trans h2
    · -- printEach
      intro st es st' h
      cases es with
      | nil => simp only [printEach] at h; cases h; rfl
      | cons e rest =>
        simp only [printEach] at h
        split at h
        · exact Except.noConfusion h
        · rename_i v0 st1 heq1
          have h1 := ihPrint _ _ _ h
          have h2 := ihEval _ _ _ _ heq1
          exact h1.trans h2
    · -- call_user_function
      intro st callee args v st' h
      simp only [call_user_function] at h
      split at h
      · exact Except.noConfusion h
      · rename_i cv st1 heq1
        exact (ihApply _ _ _ _ _ h).trans (ihEval _ _ _ _ heq1)
    · -- applyFunction
      intro st cv args v st' h
      simp only [applyFunction] at h
      split at h
      · rename_i f
        split at h
        · exact Except.noConfusion h
        · split at h
          · exact Except.noConfusion h
          · rename_i argVals st2 heq1
            split at h
            · exact Except.noConfusion h
            · rename_i rv st4 heq2
              cases h
              have hx := ihList _ _ _ _ heq1
              exact hx
      · exact Except.noConfusion h
    · -- runBody
      intro st body v st' h
      cases body with
      | nil => simp only [runBody] at h; cases h; rfl
      | cons s rest =>
        simp only [runBody] at h
        split at h
        · exact Except.noConfusion h
        · rename_i rv st1 heq1
          cases h
          exact ihExec _ _ _ _ heq1
        · rename_i st1 heq1
          exact (ihBody _ _ _ _ h).trans (ihExec _ _ _ _ heq1)
    · -- execute
      intro st s r st' h
      cases s with
      | Expr e =>
        simp only [execute] at h
        split at h
        · exact Except.noConfusion h
        · rename_i v0 st1 heq1
          cases h
          exact ihEval _ _ _ _ heq1
      | Let name init =>
        simp only [execute] at h
        cases init with
        | none => simp only at h; cases h; rfl
        | some e =>
          simp only at h
          split at h
          · exact Except.noConfusion h
          · rename_i v0 st1 heq1
            cases h
            have hx := ihEval _ _ _ _ heq1
            exact hx
      | Print e =>
        simp only [execute] at h
        split at h
        · exact Except.noConfusion h
        · rename_i v0 st1 heq1
          cases h
          have hx := ihEval _ _ _ _ heq1
          exact hx
      | Block stmts =>
        simp only [execute] at h
        split at h
        · exact Except.noConfusion h
        · cases h
          rfl
      | If c t eOpt =>
        simp only [execute] at h
        split at h
        · exact Except.noConfusion h
        · rename_i cv st1 heq1
          split at h
          · exact (ihExec _ _ _ _ h).trans (ihEval _ _ _ _ heq1)
          · split at h
            · exact (ihExec _ _ _ _ h).trans (ihEval _ _ _ _ heq1)
            · cases h
              exact ihEval _ _ _ _ heq1
      | While c b =>
        simp only [execute] at h
        split at h
        · exact Except.noConfusion h
        · rename_i cv st1 heq1
          split at h
          · split at h
            · exact Except.noConfusion h
            · rename_i rv st2 heq2
              cases h
              exact (ihExec _ _ _ _ heq2).trans (ihEval _ _ _ _ heq1)
            · rename_i st2 heq2
              exact (ihExec _ _ _ _ h).trans
                ((ihExec _ _ _ _ heq2).trans (ihEval _ _ _ _ heq1))
          · cases h
            exact ihEval _ _ _ _ heq1
      | For vn iter b =>
        simp only [execute] at h
        split at h
        · exact Except.noConfusion h
        · rename_i itv st1 heq1
          split at h
          · exact (ihFor _ _ _ _ _ _ h).trans (ihEval _ _ _ _ heq1)
          · exact (ihFor _ _ _ _ _ _ h).trans (ihEval _ _ _ _ heq1)
          · exact Except.noConfusion h
      | Function name params body =>
        simp only [execute] at h
        cases h
        rfl
      | Return vOpt =>
        simp only [execute] at h
        cases vOpt with
        | none => simp only at h; cases h; rfl
        | some e =>
          simp only at h
          split at h
          · exact Except.noConfusion h
          · rename_i v0 st1 heq1
            cases h
            exact ihEval _ _ _ _ heq1
    · -- execSeq
      intro st ss r st' h
      cases ss with
      | nil => simp only [execSeq] at h; cases h; rfl
      | cons s rest =>
        simp only [execSeq] at h
        split at h
        · exact Except.noConfusion h
        · rename_i rv st1 heq1
          cases h
          exact ihExec _ _ _ _ heq1
        · rename_i st1 heq1
          exact (ihSeq _ _ _ _ h).trans (ihExec _ _ _ _ heq1)
    · -- forIter
      intro st vn items b r st' h
      cases items with
      | nil => simp only [forIter] at h; cases h; rfl
      | cons item rest =>
        simp only [forIter] at h
        split at h
        · exact Except.noConfusion h
        · rename_i rv st1 heq1
          cases h
          rfl
        · rename_i st1 heq1
          have hx := ihFor _ _ _ _ _ _ h
          exact hx

/-- C4: applying a Function value checks the arity first (a mismatch is
a fatal runtime error); otherwise the call environment is a fresh frame
(a previously unused index) whose parent is the function's captured
closure, the arguments are evaluated left to right in the caller's
environment before any parameter is bound (the unfolding equation shows
`evalList` running before `bindParams` and the body), the body runs in
the call environment with the result being the first propagating return
or `Number 0` when the body completes without one, and a completed call
leaves the current-environment pointer exactly where it was before the
call. -/
theorem c4_call_semantics (fuel : Nat) (st : InterpState) (f : Func) (args : List Expr) :
    (args.length ≠ f.params.length →
      applyFunction (fuel + 1) st (.Function f) args =
        .error (.ArityMismatch f.params.length args.length)) ∧
    (∀ v st', applyFunction (fuel + 1) st (.Function f) args = .ok (v, st') →
      st'.current = st.current) ∧
    (args.length = f.params.length →
      ∀ argVals st2,
        evalList fuel { st with envs := (allocEnv st.envs (some f.closure)).2 } args =
          .ok (argVals, st2) →
        applyFunction (fuel + 1) st (.Function f) args =
          (match runBody fuel
              { st2 with
                envs := bindParams st2.envs (allocEnv st.envs (some f.closure)).1
                  f.params argVals,
                current := (allocEnv st.envs (some f.closure)).1 } f.body with
           | .error er => .error er
           | .ok (rv, st4) => .ok (rv, { st4 with current := st2.current }))) ∧
    (st.envs.get? (allocEnv st.envs (some f.closure)).1 = none ∧
      (allocEnv st.envs (some f.closure)).2.get? (allocEnv st.envs (some f.closure)).1 =
        some ⟨[], some f.closure⟩) ∧
    (∀ st0, runBody (fuel + 1) st0 ([] : List Stmt) = .ok (.Number 0, st0)) ∧
    (∀ st0 s rest rv st1, execute fuel st0 s = .ok (some rv, st1) →
      runBody (fuel + 1) st0 (s :: rest) = .ok (rv, st1)) ∧
    (∀ st0 s rest st1, execute fuel st0 s = .ok (none, st1) →
      runBody (fuel + 1) st0 (s :: rest) = runBody fuel st1 rest) := by
  refine ⟨?_, ?_, ?_, ⟨?_, ?_⟩, ?_, ?_, ?_⟩
  · intro hlen
    simp only [applyFunction]
    rw [if_pos hlen]
  · exact fun v st' h =>
      (current_preserved (fuel + 1)).2.2.2.2.2.1 st (.Function f) args v st' h
  · intro hlen argVals st2 hlist
    simp only [applyFunction]
    rw [if_neg (by omega)]
    simp only [allocEnv] at hlist ⊢
    rw [hlist]
  · simp only [allocEnv]
    exact List.get?_eq_none.mpr (le_refl _)
  · simp only [allocEnv]
    rw [List.get?_eq_getElem?]
    exact List.getElem?_concat_length _ _
  · intro st0
    rfl
  · intro st0 s rest rv st1 hex
    simp only [runBody]
    rw [hex]
  · intro st0 s rest st1 hex
    simp only [runBody]
    rw [hex]

/-- C4 witness: a concrete unary identity function — the arity error at
zero arguments, a completed call returning the argument with the
environment pointer restored to the global frame, and the body-result
equations at concrete statement lists. -/
theorem c4_call_semantics_witness :
    applyFunction 1 initState
        (.Function ⟨"id", ["x"], [.Return (some (.Variable "x"))], 0⟩) [] =
      .error (.ArityMismatch 1 0) ∧
    applyFunction 9 initState
        (.Function ⟨"id", ["x"], [.Return (some (.Variable "x"))], 0⟩) [.Number 5] =
      .ok (.Number 5,
        { envs := [⟨[], none⟩, ⟨[("x", .Number 5)], some 0⟩], current := 0, output := [] }) ∧
    InterpState.current
        { envs := [⟨[], none⟩, ⟨[("x", .Number 5)], some 0⟩], current := 0, output := [] } =
      initState.current ∧
    runBody 3 initState ([] : List Stmt) = .ok (.Number 0, initState) ∧
    runBody 3 initState [.Return (some (.Number 7))] = .ok (.Number 7, initState) :=
  ⟨(c4_call_semantics 0 initState ⟨"id", ["x"], [.Return (some (.Variable "x"))], 0⟩ []).1
      (by decide),
   rfl,
   (c4_call_semantics 8 initState ⟨"id", ["x"], [.Return (some (.Variable "x"))], 0⟩
      [.Number 5]).2.1 (.Number 5)
      { envs := [⟨[], none⟩, ⟨[("x", .Number 5)], some 0⟩], current := 0, output := [] } rfl,
   (c4_call_semantics 2 initState ⟨"id", ["x"], [.Return (some (.Variable "x"))], 0⟩
      []).2.2.2.2.1 initState,
   (c4_call_semantics 2 initState ⟨"id", ["x"], [.Return (some (.Variable "x"))], 0⟩
      []).2.2.2.2.2.1 initState (.Return (some (.Number 7))) [] (.Number 7) initState rfl⟩

end RuiLian
